import Mathlib

/-!
Verification of the panel control-plane core.

This file is a shallow embedding of the node / allocation / server control
plane of the repository (`src/backend/core.js`, `src/modules/websocket.js`,
with the persistence layer `src/modules/db.js`), together with proofs about
the embedded operations.

Modelling conventions:
* The encrypted key-value store exposes per-table `get/put/update/delete/list`
  primitives over JSON objects keyed by opaque ids.  Each table is modelled as
  a Lean list; `put` replaces the first entry carrying the key (JS objects
  keep the position of an existing key) or appends, `delete` filters the key
  out, `get` returns the first entry under the key, `list` returns the whole
  list.  Server, user and image records store their own `id` field equal to
  their key, so those tables are lists of records.  Node records are stored
  WITHOUT an `id` property (see `POST /admin/node/create`): the nodes table is
  a list of (key, record) pairs, and only `unsqh.list` re-attaches the key as
  `id`.  Consequently a node obtained through `unsqh.get` has `node.id ===
  undefined`, which matters in `POST /admin/node/:id/delete`.
* JS falsiness is modelled explicitly where the code relies on it: a missing
  or empty string field is `""`, a missing/`null` numeric field is
  `Option Nat` with `jsTruthyNum` capturing that `0`, `null` and `undefined`
  are all falsy.
* Remote node calls are I/O: each operation takes the remote outcome as an
  explicit parameter (`none` = the call threw / timed out).  Generated ids
  and timestamps are likewise parameters.
* Code paths that throw a `TypeError` at runtime (e.g. dereferencing a
  missing record) are modelled by explicit `crashed` outcome constructors.

The file is organised as: all definitions (the embedding plus the concrete
fixtures used by witnesses and counterexamples), then all theorems.
-/

namespace Panel

/-- JS truthiness of an optional numeric field: `undefined`, `null` and `0`
are falsy, every other number is truthy. -/
def jsTruthyNum : Option Nat → Bool
  | none => false
  | some n => n != 0

/-- JS `x || y` for string fields, where the empty string is falsy
(models `name || server.name` etc.). -/
def jsOrS (x y : String) : String :=
  if x = "" then y else x

/-- JS `arr[0] || null` on a numeric array: an empty array gives `undefined`
(hence `null`), and a leading `0` is falsy and also gives `null`. -/
def jsHeadOrNull : List Nat → Option Nat
  | [] => none
  | p :: _ => if p = 0 then none else some p

/-- Parse a non-empty all-digit character list into a number (`none` on any
non-digit or on the empty list) — the behaviour of JS `Number` on the
fragments this code base feeds it, written over characters so that concrete
instances evaluate. -/
def parseDigits (cs : List Char) : Option Nat :=
  match cs with
  | [] => none
  | _ =>
    cs.foldl (fun acc c =>
      match acc with
      | none => none
      | some n => if c.isDigit then some (n * 10 + (c.toNat - 48)) else none)
      (some 0)

/-- JS `Number` restricted to the strings this code base feeds it: the empty
string is `0`, a digit string parses, anything else is `NaN` (`none`). -/
def jsNum (s : String) : Option Nat :=
  if s = "" then some 0 else parseDigits s.data

/-- `str.split(sep)` for a one-character separator, over characters. -/
def splitOnChar (sep : Char) : List Char → List (List Char)
  | [] => [[]]
  | c :: cs =>
    match splitOnChar sep cs with
    | [] => [[c]]
    | h :: t => if c = sep then [] :: h :: t else (c :: h) :: t

/-- `port.split("-")` of the allocation-add route. -/
def jsSplitDash (s : String) : List String :=
  (splitOnChar '-' s.data).map String.mk

/-- Replace the first element satisfying `p` by `v`, appending `v` when no
element matches.  This is exactly a JS object write `obj[key] = v`: an
existing key keeps its position, a new key is appended in insertion order. -/
def replaceFirstOrAppend (p : α → Bool) (v : α) : List α → List α
  | [] => [v]
  | x :: xs => if p x then v :: xs else x :: replaceFirstOrAppend p v xs

/-- Apply `f` to the first element satisfying `p` (models an in-place mutation
of the object returned by `Array.prototype.find`). -/
def updateFirst (p : α → Bool) (f : α → α) : List α → List α
  | [] => []
  | x :: xs => if p x then f x :: xs else x :: updateFirst p f xs

/-! Data model. -/

/-- An allocation as stored inside a node record.  `allocationOwnedto` is the
`{ serverId }` object (or `null`/absent, both `none` here); `type` is the role
field, absent modelled as `""`. -/
structure Allocation where
  id : String
  ip : String
  domain : Option String := none
  port : Nat
  createdAt : Nat := 0
  type : String := ""
  allocationOwnedto : Option String := none
deriving Repr, DecidableEq

/-- A node record as stored in the `nodes` table.  It carries no `id` field;
the table key lives outside the record. -/
structure NodeRec where
  name : String
  ip : String
  port : Nat := 0
  key : String := ""
  allocations : List Allocation := []
  status : String := "offline"
deriving Repr, DecidableEq

/-- The node snapshot embedded in a server record at creation time
(`{ id: nodeId, ip: node.ip, name: node.name }`). -/
structure NodeSnapshot where
  id : String
  ip : String
  name : String
deriving Repr, DecidableEq

/-- One audit log entry (`{ id, userId, action, ts }`). -/
structure AuditEntry where
  id : String
  userId : String
  action : String
  ts : String
deriving Repr, DecidableEq

/-- A file template of an image; only the two fields the core interpolates
are modelled. -/
structure ImageFile where
  name : String
  url : String
deriving Repr, DecidableEq

/-- An image record (the fields the server lifecycle reads). -/
structure Image where
  id : String
  dockerImage : String := ""
  envs : List (String × String) := []
  files : List ImageFile := []
deriving Repr, DecidableEq

/-- A canonical server record (the fields the claims touch; the embedded
image snapshot and a few display-only fields are omitted).  `ports` is the
claimed-port array, absent until the first network claim. -/
structure Server where
  id : String
  userId : String := ""
  node : Option NodeSnapshot := none
  allocationId : String := ""
  ip : String := ""
  imageId : String := ""
  name : String := ""
  ram : String := ""
  core : String := ""
  disk : String := ""
  port : Option Nat := none
  ports : Option (List Nat) := none
  containerId : String := ""
  idt : String := ""
  env : List (String × String) := []
  suspended : Bool := false
  auditLogs : List AuditEntry := []
  createdAt : Nat := 0
deriving Repr, DecidableEq

/-- A user record (`servers` is the denormalized embedded copy list). -/
structure User where
  id : String
  admin : Bool := false
  servers : List Server := []
deriving Repr, DecidableEq

/-- The whole persisted state: the four tables the core mutates. -/
structure State where
  nodes : List (String × NodeRec) := []
  servers : List Server := []
  users : List User := []
  images : List Image := []
deriving Repr, DecidableEq

/-! Table primitives (`src/modules/db.js`). -/

/-- `unsqh.get("nodes", id)` (the returned record has no `id` property). -/
def getNode (st : State) (id : String) : Option NodeRec :=
  (st.nodes.find? (fun e => e.1 == id)).map (·.2)

/-- `unsqh.put("nodes", id, n)` / `unsqh.update("nodes", id, {allocations})`
after the merge. -/
def putNode (st : State) (id : String) (n : NodeRec) : State :=
  { st with nodes := replaceFirstOrAppend (fun e => e.1 == id) (id, n) st.nodes }

/-- `unsqh.get("servers", id)`. -/
def getServerRec (st : State) (id : String) : Option Server :=
  st.servers.find? (fun s => s.id == id)

/-- `unsqh.put("servers", s.id, s)`. -/
def putServer (st : State) (s : Server) : State :=
  { st with servers := replaceFirstOrAppend (fun x => x.id == s.id) s st.servers }

/-- `unsqh.get("users", id)`. -/
def getUser (st : State) (id : String) : Option User :=
  st.users.find? (fun u => u.id == id)

/-- `unsqh.put("users", u.id, u)`. -/
def putUser (st : State) (u : User) : State :=
  { st with users := replaceFirstOrAppend (fun x => x.id == u.id) u st.users }

/-- `unsqh.get("images", id)`. -/
def getImage (st : State) (id : String) : Option Image :=
  st.images.find? (fun i => i.id == id)

/-! Authentication middleware (`requireAuth`, `requireAdmin`). -/

/-- Outcome of the `requireAuth` + `requireAdmin` middleware chain. -/
inductive AuthResult
  | redirectLogin
  | forbidden
  | ok (userId : String)
deriving Repr, DecidableEq

/-- `requireAuth` redirects when `req.session.userId` is falsy; `requireAdmin`
rejects when the session user record is absent or `admin !== true`. -/
def adminGate (st : State) (session : Option String) : AuthResult :=
  match session with
  | none => .redirectLogin
  | some uid =>
    if uid = "" then .redirectLogin
    else
      match getUser st uid with
      | none => .forbidden
      | some u => if u.admin then .ok uid else .forbidden

/-! Environment merge and `${VAR}` interpolation
(`POST /admin/servers/new`, lines 1043-1060 of `src/backend/core.js`). -/

/-- Lookup in an env object modelled as an association list
(`envObj[key]`, `none` = `undefined`). -/
def envLookup (l : List (String × String)) (k : String) : Option String :=
  (l.find? (fun kv => kv.1 == k)).map (·.2)

/-- The env merge of server create:
`for key of Object.keys(image.envs): finalEnv[key] = env[key] ?? image.envs[key]`.
Each image-declared variable gets the caller value when supplied (non
nullish), otherwise its image default; caller keys outside the image
declaration are dropped. -/
def mergeEnvCreate (imageEnvs callerEnv : List (String × String)) :
    List (String × String) :=
  imageEnvs.map (fun kv => (kv.1, (envLookup callerEnv kv.1).getD kv.2))

/-- A `\w` character of the regex `/\$\{(\w+)\}/g`: ASCII letters, digits and
underscore. -/
def isWordChar (c : Char) : Bool :=
  c.isAlphanum || c == '_'

/-- Split a leading run of word characters off a character list. -/
def takeWord : List Char → List Char × List Char
  | [] => ([], [])
  | c :: cs =>
    if isWordChar c then
      let (w, r) := takeWord cs
      (c :: w, r)
    else ([], c :: cs)

/-- Try to match the remainder of `\$\{(\w+)\}` after a `'$'`: a `'{'`, a
non-empty word, a `'}'`.  Returns the variable name and the rest of the
input on success. -/
def tryVar (cs : List Char) : Option (List Char × List Char) :=
  match cs with
  | [] => none
  | c :: cs2 =>
    if c = '{' then
      let w := (takeWord cs2).1
      let r := (takeWord cs2).2
      if w.isEmpty then none
      else if r.head? = some '}' then some (w, r.tail) else none
    else none

/-- Termination evidence for the interpolation scanner: `takeWord` returns a
suffix no longer than its input.  (A Prop-valued definition: it is part of
the `interpScan` definition below.) -/
def takeWordSuffixLe : ∀ l : List Char, (takeWord l).2.length ≤ l.length := by
  intro l
  induction l with
  | nil => simp [takeWord]
  | cons a as ih =>
    by_cases ha : isWordChar a = true
    · simp only [takeWord, ha, if_pos, List.length_cons]
      omega
    · simp [takeWord, ha]

/-- Termination evidence for the interpolation scanner: a successful token
match strictly shrinks the input. -/
def tryVarRestLt : ∀ {cs v rest : List Char},
    tryVar cs = some (v, rest) → rest.length < cs.length := by
  intro cs v rest h
  match cs with
  | [] => simp [tryVar] at h
  | b :: bs =>
    simp only [tryVar] at h
    by_cases hb : b = '{'
    · rw [if_pos hb] at h
      by_cases hw : ((takeWord bs).1).isEmpty
      · rw [if_pos hw] at h; exact absurd h (by simp)
      · rw [if_neg hw] at h
        by_cases hr0 : (takeWord bs).2.head? = some '}'
        · rw [if_pos hr0] at h
          have hrest : rest = (takeWord bs).2.tail := by
            have := (Option.some.injEq _ _).mp h
            exact ((Prod.mk.injEq _ _ _ _).mp this).2.symm
          subst hrest
          have h1 := takeWordSuffixLe bs
          have hrne : (takeWord bs).2 ≠ [] := by
            intro hnil; rw [hnil] at hr0; simp at hr0
          have h2 : (takeWord bs).2.tail.length + 1
              = (takeWord bs).2.length := by
            cases hcase : (takeWord bs).2 with
            | nil => exact absurd hcase hrne
            | cons u us => simp
          simp only [List.length_cons]
          omega
        · rw [if_neg hr0] at h; exact absurd h (by simp)
    · rw [if_neg hb] at h; exact absurd h (by simp)

/-- The body of `str.replace(/\$\{(\w+)\}/g, (_, key) => envObj[key] ??
process.env[key] ?? "")`: scan left to right, substitute each matched token
by the env value, falling back to the ambient process env, falling back to
the empty string; the substituted value is emitted verbatim (no rescan). -/
def interpScan (env penv : String → Option String) : List Char → List Char
  | [] => []
  | c :: cs =>
    if c = '$' then
      match h : tryVar cs with
      | some (v, rest) =>
        ((env (String.mk v)).getD ((penv (String.mk v)).getD "")).data
          ++ interpScan env penv rest
      | none => c :: interpScan env penv cs
    else c :: interpScan env penv cs
termination_by l => l.length
decreasing_by
  · exact Nat.lt_succ_of_lt (tryVarRestLt h)
  · simp
  · simp

/-- `interpolateEnv(str, envObj)` of the create/edit routes.  (The JS helper
returns non-strings unchanged; the fields it is applied to are strings
here.) -/
def interpolateEnv (s : String) (env penv : String → Option String) : String :=
  String.mk (interpScan env penv s.data)

/-- Resolution of an image's file templates: each file keeps its other fields
and has `url` and `name` interpolated against the merged env. -/
def resolveFiles (files : List ImageFile) (env : List (String × String))
    (penv : String → Option String) : List ImageFile :=
  files.map (fun f =>
    { f with
      url := interpolateEnv f.url (envLookup env) penv
      name := interpolateEnv f.name (envLookup env) penv })

/-! Server create (`POST /admin/servers/new`, lines 997-1130). -/

/-- The request body of server create.  A missing string field is `""`
(falsy, like `undefined`, for the `!field` checks); `env` is the
caller-supplied environment object. -/
structure CreateReq where
  imageId : String
  nodeId : String
  allocationId : String
  name : String
  userId : String
  ram : String := ""
  core : String := ""
  disk : String := ""
  env : List (String × String) := []
deriving Repr, DecidableEq

/-- The node agent's answer to `POST /server/create`. -/
structure CreateResp where
  containerId : String
  idt : String
deriving Repr, DecidableEq

/-- The body sent to the node's create endpoint. -/
structure CreatePayload where
  dockerimage : String
  env : List (String × String)
  name : String
  ram : String
  core : String
  disk : String
  port : Nat
  files : List ImageFile
deriving Repr, DecidableEq

/-- Outcome of the create route. -/
inductive CreateOutcome
  | redirectLogin
  | forbidden
  | missingFields
  | nodeNotFound
  | allocationNotFound
  | allocationClaimed
  | imageNotFound
  | userNotFound
  | deployFailed (payload : CreatePayload)
  | success (payload : CreatePayload) (server : Server)
deriving Repr, DecidableEq

/-- `POST /admin/servers/new`.  `freshId` models the generated server id,
`now` the clock, `penv` the ambient process environment, `remote` the node
agent's answer (`none` = the remote create threw). -/
def createServer (st : State) (session : Option String) (req : CreateReq)
    (freshId : String) (now : Nat) (penv : String → Option String)
    (remote : Option CreateResp) : State × CreateOutcome :=
  match adminGate st session with
  | .redirectLogin => (st, .redirectLogin)
  | .forbidden => (st, .forbidden)
  | .ok _ =>
    if req.imageId = "" ∨ req.nodeId = "" ∨ req.allocationId = "" ∨
        req.name = "" ∨ req.userId = "" then
      (st, .missingFields)
    else
      match getNode st req.nodeId with
      | none => (st, .nodeNotFound)
      | some node =>
        match node.allocations.find? (fun a => a.id == req.allocationId) with
        | none => (st, .allocationNotFound)
        | some allocation =>
          if allocation.allocationOwnedto.isSome then (st, .allocationClaimed)
          else
            match getImage st req.imageId with
            | none => (st, .imageNotFound)
            | some image =>
              match getUser st req.userId with
              | none => (st, .userNotFound)
              | some targetUser =>
                let finalEnv := mergeEnvCreate image.envs req.env
                let resolvedFiles := resolveFiles image.files finalEnv penv
                let payload : CreatePayload :=
                  { dockerimage := image.dockerImage, env := finalEnv,
                    name := req.name, ram := req.ram, core := req.core,
                    disk := req.disk, port := allocation.port,
                    files := resolvedFiles }
                match remote with
                | none => (st, .deployFailed payload)
                | some resp =>
                  let serverData : Server :=
                    { id := freshId, userId := req.userId,
                      node := some { id := req.nodeId, ip := node.ip,
                                     name := node.name },
                      allocationId := req.allocationId,
                      ip := allocation.domain.getD allocation.ip,
                      imageId := req.imageId, name := req.name,
                      ram := req.ram, core := req.core, disk := req.disk,
                      port := some allocation.port,
                      containerId := resp.containerId, idt := resp.idt,
                      env := finalEnv, suspended := false, createdAt := now }
                  let allocations' :=
                    updateFirst (fun a => a.id == req.allocationId)
                      (fun a => { a with type := "primary",
                                         allocationOwnedto := some freshId })
                      node.allocations
                  let node' := { node with allocations := allocations' }
                  let st1 := putNode st req.nodeId node'
                  let st2 := putServer st1 serverData
                  let st3 := putUser st2
                    { targetUser with
                      servers := targetUser.servers ++ [serverData] }
                  (st3, .success payload serverData)

/-! Allocation add (`POST /admin/node/:id/allocations/add`, lines 364-432). -/

/-- The `port` field of the allocation-add body: a JSON string or number.
`none` at the call site models an absent field. -/
inductive PortField
  | str (s : String)
  | num (n : Nat)
deriving Repr, DecidableEq

/-- JS falsiness of the `port` body field (`!port`): absent, the empty
string, and the number `0` are all falsy. -/
def portFalsy : Option PortField → Bool
  | none => true
  | some (.str s) => s == ""
  | some (.num n) => n == 0

/-- One step of the range-insertion loop: skip the port when an allocation
with the same `(ip, port)` already exists on the node (checked against the
live, growing list), otherwise append a fresh allocation to both the node
list and the `added` response list.  `mkId` models `crypto.randomUUID()`,
indexed by how many allocations this call created so far. -/
def allocStep (ip : String) (domain : Option String) (now : Nat)
    (mkId : Nat → String) (acc : List Allocation × List Allocation)
    (p : Nat) : List Allocation × List Allocation :=
  if acc.1.any (fun a => a.ip == ip && a.port == p) then acc
  else
    let a : Allocation :=
      { id := mkId acc.2.length, ip := ip, domain := domain, port := p,
        createdAt := now }
    (acc.1 ++ [a], acc.2 ++ [a])

/-- Fold over a list in chunks of `bs` (at least one element per round, as
in the source where `batchSize` is the constant 150 > 0): the loop
`for (i = 0; i < ports.length; i += batchSize) slice(i, i + batchSize)`. -/
def chunkedFoldl (f : β → α → β) (bs : Nat) (acc : β) : List α → β
  | [] => acc
  | x :: xs =>
    chunkedFoldl f bs ((x :: xs.take (bs - 1)).foldl f acc) (xs.drop (bs - 1))
termination_by l => l.length
decreasing_by
  simp only [List.length_cons]
  have := List.length_drop (bs - 1) xs
  omega

/-- Outcome of the allocation-add route. -/
inductive AddAllocOutcome
  | redirectLogin
  | forbidden
  | nodeNotFound
  | missingFields
  | invalidRange
  | conflict
  | singleAdded (a : Allocation)
  | rangeAdded (added : List Allocation) (totalAdded : Nat)
  | nanSinglePort
deriving Repr, DecidableEq

/-- `POST /admin/node/:id/allocations/add`.  A string `port` containing `-`
is treated as a range `start-end` split on `-` with both bounds through JS
`Number` (`NaN` or `start > end` is an invalid range), expanded inclusively,
inserted in batches of 150 with `(ip, port)` duplicates silently skipped;
the response carries the added set and its count.  A single port conflicts
when `(ip, port)` already exists.  (A single non-numeric string port would
insert a `NaN` port in the source; that degenerate case is left abstract as
`nanSinglePort` — no claim touches it.) -/
def addAllocations (st : State) (session : Option String) (nodeId : String)
    (ip : String) (domain : Option String) (port : Option PortField)
    (mkId : Nat → String) (now : Nat) : State × AddAllocOutcome :=
  match adminGate st session with
  | .redirectLogin => (st, .redirectLogin)
  | .forbidden => (st, .forbidden)
  | .ok _ =>
    match getNode st nodeId with
    | none => (st, .nodeNotFound)
    | some node =>
      if ip = "" ∨ portFalsy port then (st, .missingFields)
      else
        match port with
        | some (.str s) =>
          if s.data.contains '-' then
            match (jsSplitDash s).head? , ((jsSplitDash s).drop 1).head? with
            | some p0, some p1 =>
              match jsNum p0, jsNum p1 with
              | some start, some stop =>
                if start > stop then (st, .invalidRange)
                else
                  let ports := List.range' start (stop + 1 - start)
                  let folded := chunkedFoldl
                    (allocStep ip domain now mkId) 150
                    (node.allocations, []) ports
                  (putNode st nodeId { node with allocations := folded.1 },
                   .rangeAdded folded.2 folded.2.length)
              | _, _ => (st, .invalidRange)
            | _, _ => (st, .invalidRange)
          else
            match jsNum s with
            | some n => addSinglePort st nodeId node ip domain n mkId now
            | none => (st, .nanSinglePort)
        | some (.num n) => addSinglePort st nodeId node ip domain n mkId now
        | none => (st, .missingFields)
where
  /-- The single-port branch. -/
  addSinglePort (st : State) (nodeId : String) (node : NodeRec) (ip : String)
      (domain : Option String) (n : Nat) (mkId : Nat → String) (now : Nat) :
      State × AddAllocOutcome :=
    if node.allocations.any (fun a => a.ip == ip && a.port == n) then
      (st, .conflict)
    else
      let a : Allocation :=
        { id := mkId 0, ip := ip, domain := domain, port := n,
          createdAt := now }
      (putNode st nodeId { node with allocations := node.allocations ++ [a] },
       .singleAdded a)

/-! Audit log (`addAuditLog`, lines 2713-2755). -/

/-- Result of `addAuditLog`. -/
inductive AuditResult
  | missing
  | noServer
  | crashed
  | logged (e : AuditEntry)
deriving Repr, DecidableEq

/-- `addAuditLog(serverId, userId, action)`.  Falsy arguments return `false`
and write nothing.  When the canonical server is found the entry is appended
and the new log list is replicated to the first matching embedded copy of
every user record that holds one (matched by server id).  When the canonical
record is absent but a fallback matches by `id` or `idt`, the source assigns
to the `const server` binding and throws a `TypeError` before writing
anything (`crashed`); with no fallback it returns `false`. -/
def addAuditLog (st : State) (serverId userId action : String)
    (entryId ts : String) : State × AuditResult :=
  if serverId = "" ∨ userId = "" ∨ action = "" then (st, .missing)
  else
    match getServerRec st serverId with
    | none =>
      match st.servers.find? (fun s => s.id == serverId || s.idt == serverId) with
      | none => (st, .noServer)
      | some _ => (st, .crashed)
    | some server =>
      let entry : AuditEntry :=
        { id := entryId, userId := userId, action := action, ts := ts }
      let logs := server.auditLogs ++ [entry]
      let st1 := putServer st { server with auditLogs := logs }
      let fanOut := fun (u : User) =>
        if u.servers.any (fun s => s.id == server.id) then
          let servers' := updateFirst (fun s => s.id == server.id)
            (fun s => { s with auditLogs := logs }) u.servers
          { u with servers := servers' }
        else u
      let users' := st1.users.map fanOut
      ({ st1 with users := users' }, .logged entry)

/-! Per-user server resolution and the `withServer` middleware
(lines 1571-1599). -/

/-- `getServerForUser(userId, serverId)`: the embedded copy from the user's
own list when present, otherwise — for admins only — the canonical record. -/
def getServerForUser (st : State) (userId serverId : String) : Option Server :=
  match getUser st userId with
  | none => none
  | some user =>
    match user.servers.find? (fun s => s.id == serverId) with
    | some s => some s
    | none => if user.admin then getServerRec st serverId else none

/-! Network claim / release
(`GET /server/network/:id/add/:port`, lines 2339-2406;
`POST /server/network/:id/remove/:port`, lines 2468-2517). -/

/-- Outcome of the network routes. -/
inductive NetOutcome
  | redirectLogin
  | crashedNoServer
  | suspendedRedirect
  | dashboardRedirect
  | nodeNotFound
  | invalidAllocation
  | allocationTaken
  | primaryExists
  | allocationNotOwned
  | failed
  | claimed
  | released
deriving Repr, DecidableEq

/-- `GET /server/network/:id/add/:port`.  `remote` is the node agent's
`containerId` answer (`none` = the remote call threw).  On success the
allocation found by port is claimed for the acting server's id, promoted to
`"primary"` when the server's stored port is falsy or the allocation already
carried the primary role, the port is appended to the server's port list,
the canonical record and the owner's embedded copy are replaced, and an
audit entry is written.  (The `withServer` middleware calls
`router.bindLog(server.id)` before its null check, so a missing server
crashes rather than redirecting.) -/
def addAllocationToServer (st : State) (session : Option String)
    (id : String) (port : Nat) (remote : Option String)
    (entryId ts : String) : State × NetOutcome :=
  match session with
  | none => (st, .redirectLogin)
  | some uid =>
    if uid = "" then (st, .redirectLogin)
    else
      match getUser st uid with
      | none => (st, .crashedNoServer)
      | some user =>
        match getServerForUser st uid id with
        | none => (st, .crashedNoServer)
        | some server =>
          if server.suspended then (st, .suspendedRedirect)
          else if server.node.isNone then (st, .dashboardRedirect)
          else
            match st.nodes.find?
                (fun e => e.2.ip == (server.node.map (·.ip)).getD "") with
            | none => (st, .nodeNotFound)
            | some (nodeKey, node) =>
              match node.allocations.find? (fun a => a.port == port) with
              | none => (st, .invalidAllocation)
              | some allocation =>
                if allocation.allocationOwnedto.isSome then
                  (st, .allocationTaken)
                else if allocation.type == "primary" &&
                    node.allocations.any (fun a =>
                      a.type == "primary" &&
                      a.allocationOwnedto == some server.id) then
                  (st, .primaryExists)
                else
                  match remote with
                  | none => (st, .failed)
                  | some containerId =>
                    let promote := fun (a : Allocation) =>
                      if !jsTruthyNum server.port || a.type == "primary"
                      then "primary" else a.type
                    let allocations' :=
                      updateFirst (fun a => a.port == port)
                        (fun a => { a with
                          allocationOwnedto := some server.id,
                          type := promote a }) node.allocations
                    let st1 := putNode st nodeKey
                      { node with allocations := allocations' }
                    let ports0 := server.ports.getD []
                    let ports' :=
                      if ports0.contains port then ports0 else ports0 ++ [port]
                    let port' :=
                      if !jsTruthyNum server.port ||
                          promote allocation == "primary"
                      then some port else server.port
                    let server' := { server with
                      ports := some ports', port := port',
                      containerId := containerId }
                    let st2 := putServer st1 server'
                    let userServers' := user.servers.map
                      (fun s => if s.id == server.id then server' else s)
                    let st3 := putUser st2 { user with servers := userServers' }
                    let st4 := (addAuditLog st3 server.id uid
                      (String.append "Claimed allocation on port "
                        (toString port)) entryId ts).1
                    (st4, .claimed)

/-- `POST /server/network/:id/remove/:port`.  On success the allocation
(found by port AND current ownership) loses its `allocationOwnedto` field —
its `type` (role) is NOT touched — the port is filtered out of the server's
port list, the server's primary port is re-derived as `ports[0] || null`
when the removed port was the primary one, and an audit entry is written. -/
def removeAllocationFromServer (st : State) (session : Option String)
    (id : String) (port : Nat) (remote : Option String)
    (entryId ts : String) : State × NetOutcome :=
  match session with
  | none => (st, .redirectLogin)
  | some uid =>
    if uid = "" then (st, .redirectLogin)
    else
      match getUser st uid with
      | none => (st, .crashedNoServer)
      | some user =>
        match getServerForUser st uid id with
        | none => (st, .crashedNoServer)
        | some server =>
          if server.suspended then (st, .suspendedRedirect)
          else if server.node.isNone then (st, .dashboardRedirect)
          else
            match st.nodes.find?
                (fun e => e.2.ip == (server.node.map (·.ip)).getD "") with
            | none => (st, .nodeNotFound)
            | some (nodeKey, node) =>
              match node.allocations.find? (fun a =>
                  a.port == port && a.allocationOwnedto == some server.id) with
              | none => (st, .allocationNotOwned)
              | some _allocation =>
                match remote with
                | none => (st, .failed)
                | some containerId =>
                  let allocations' :=
                    updateFirst (fun a =>
                        a.port == port &&
                        a.allocationOwnedto == some server.id)
                      (fun a => { a with allocationOwnedto := none })
                      node.allocations
                  let st1 := putNode st nodeKey
                    { node with allocations := allocations' }
                  let ports' :=
                    (server.ports.map (·.filter (fun p => p != port))).getD []
                  let port' :=
                    if server.port == some port then jsHeadOrNull ports'
                    else server.port
                  let server' := { server with
                    ports := some ports', port := port',
                    containerId := containerId }
                  let st2 := putServer st1 server'
                  let userServers' := user.servers.map
                    (fun s => if s.id == server.id then server' else s)
                  let st3 := putUser st2 { user with servers := userServers' }
                  let st4 := (addAuditLog st3 server.id uid
                    (String.append "Deleted allocation on port "
                      (toString port)) entryId ts).1
                  (st4, .released)

/-- The allocation-release sweep shared by server delete and the node-delete
cascade: every allocation owned by `sid` loses its owner and has its role
reset to `""`; others are untouched. -/
def releaseAllocs (sid : String) (l : List Allocation) : List Allocation :=
  l.map (fun a =>
    if a.allocationOwnedto == some sid then
      { a with allocationOwnedto := none, type := "" }
    else a)

/-! Server delete (`DELETE /admin/servers/delete/:id`, lines 1329-1373). -/

/-- Outcome of the admin server-delete route. -/
inductive DeleteOutcome
  | redirectLogin
  | forbidden
  | serverNotFound
  | nodeNotFound
  | deleted
deriving Repr, DecidableEq

/-- `DELETE /admin/servers/delete/:id`.  The node is resolved from the
listed nodes by the embedded snapshot's ip or id; if it cannot be resolved
the route answers 404 BEFORE any cleanup.  The remote container delete is
best-effort: its outcome (`remoteOk`) is caught and ignored, so the local
steps run regardless.  Allocations on the resolved node owned by this server
are freed with their role reset to `""`; the owner's embedded copies are
filtered out; the canonical record is removed. -/
def deleteServer (st : State) (session : Option String) (id : String)
    (remoteOk : Bool) : State × DeleteOutcome :=
  match adminGate st session with
  | .redirectLogin => (st, .redirectLogin)
  | .forbidden => (st, .forbidden)
  | .ok _ =>
    match getServerRec st id with
    | none => (st, .serverNotFound)
    | some server =>
      let nodeEntry : Option (String × NodeRec) :=
        match server.node with
        | none => none
        | some snap =>
          st.nodes.find? (fun e => e.2.ip == snap.ip || e.1 == snap.id)
      match nodeEntry with
      | none => (st, .nodeNotFound)
      | some (nodeKey, node) =>
        -- remote delete attempted when `server.idt` is truthy; `remoteOk`
        -- is swallowed by the catch either way
        let _ := remoteOk
        let allocations' := releaseAllocs server.id node.allocations
        let st1 := putNode st nodeKey { node with allocations := allocations' }
        let st2 : State :=
          match getUser st1 server.userId with
          | none => st1
          | some owner =>
            let owners' := owner.servers.filter (fun s => s.id != server.id)
            putUser st1 { owner with servers := owners' }
        let st3 := { st2 with
          servers := st2.servers.filter (fun s => s.id != id) }
        (st3, .deleted)

/-! Node delete with cascading server cleanup
(`POST /admin/node/:id/delete`, lines 262-357). -/

/-- Outcome of the node-delete route. -/
inductive DeleteNodeOutcome
  | redirectLogin
  | forbidden
  | nodeNotFound
  | done (deletedCount : Nat)
deriving Repr, DecidableEq

/-- The filter selecting the servers bound to the node being deleted.  The
source tests `s.node.id === node.id || s.node.ip === node.ip ||
s.node.name === node.name`, but `node` here came from `unsqh.get`, which
returns the stored record WITHOUT an `id` property: `node.id` is
`undefined` and the first comparison never holds, so only ip and name
participate. -/
def serverMatchesNode (node : NodeRec) (s : Server) : Bool :=
  match s.node with
  | none => false
  | some snap => snap.ip == node.ip || snap.name == node.name

/-- `unsqh.list("nodes").find(n => n.id === server.node?.id || n.ip ===
server.node?.ip) || node`: resolve the node that actually hosts a server,
falling back to the node being deleted.  The fallback record has no table
key (`serverNode.id` is `undefined` there), hence the `Option String`. -/
def resolveServerNode (st : State) (s : Server) (fallback : NodeRec) :
    Option String × NodeRec :=
  match st.nodes.find? (fun e =>
      (s.node.map (fun sn => e.1 == sn.id || e.2.ip == sn.ip)).getD false) with
  | some (k, n) => (some k, n)
  | none => (none, fallback)

/-- One iteration of the sequential cleanup loop of node delete: best-effort
remote delete (outcome ignored), free this server's allocations on the
resolved node, drop the owner's embedded copy, remove the canonical record,
bump the count.  When allocations need freeing but the resolved node has no
table key (the `|| node` fallback, whose `id` is `undefined`),
`unsqh.update("nodes", undefined, ...)` throws, the per-server catch fires,
and the rest of this server's cleanup is skipped (no count bump). -/
def cleanupServer (delNode : NodeRec) (acc : State × Nat) (server : Server) :
    State × Nat :=
  let st := acc.1
  let resolved := resolveServerNode st server delNode
  let serverNode := resolved.2
  let changed := serverNode.allocations.any
    (fun a => a.allocationOwnedto == some server.id)
  let freed := releaseAllocs server.id serverNode.allocations
  if changed then
    match resolved.1 with
    | none => (st, acc.2)
    | some k =>
      match getNode st k with
      | none => (st, acc.2)
      | some cur =>
        let st1 := putNode st k { cur with allocations := freed }
        finishCleanup st1 server acc.2
  else
    finishCleanup st server acc.2
where
  /-- The owner-patch, canonical-removal and count steps shared by the
  `changed`/unchanged branches. -/
  finishCleanup (st : State) (server : Server) (count : Nat) : State × Nat :=
    let st2 :=
      if server.userId != "" then
        match getUser st server.userId with
        | none => st
        | some owner =>
          if owner.servers.any (fun s => s.id == server.id) then
            let owners' := owner.servers.filter (fun s => s.id != server.id)
            putUser st { owner with servers := owners' }
          else st
      else st
    let st3 := { st2 with
      servers := st2.servers.filter (fun s => s.id != server.id) }
    (st3, count + 1)

/-- `POST /admin/node/:id/delete`: select every server whose embedded node
snapshot matches the fetched node (by ip or name; the id clause is dead, see
`serverMatchesNode`), run the cleanup sequence sequentially over the
snapshot list, then remove the node record regardless of individual
outcomes. -/
def deleteNode (st : State) (session : Option String) (id : String) :
    State × DeleteNodeOutcome :=
  match adminGate st session with
  | .redirectLogin => (st, .redirectLogin)
  | .forbidden => (st, .forbidden)
  | .ok _ =>
    match getNode st id with
    | none => (st, .nodeNotFound)
    | some node =>
      let toRemove := st.servers.filter (serverMatchesNode node)
      let folded := toRemove.foldl (cleanupServer node) (st, 0)
      let st2 := { folded.1 with
        nodes := folded.1.nodes.filter (fun e => e.1 != id) }
      (st2, .done folded.2)

/-! Server edit (`POST /admin/edit/:serverId`, lines 1138-1247). -/

/-- The request body of server edit.  The commented-out `port` field of the
source's destructuring is kept here to state that the route ignores it; no
code path below reads it.  An absent string field is `""`. -/
structure EditReq where
  name : String := ""
  ram : String := ""
  core : String := ""
  disk : String := ""
  port : Option Nat := none
  env : List (String × String) := []
  files : List ImageFile := []
  imageId : String := ""
deriving Repr, DecidableEq

/-- The body sent to the node's edit endpoint. -/
structure EditPayload where
  idt : String
  dockerimage : String
  env : List (String × String)
  name : String
  ram : String
  core : String
  disk : String
  port : Option Nat
  files : List ImageFile
deriving Repr, DecidableEq

/-- Outcome of the edit route. -/
inductive EditOutcome
  | redirectLogin
  | forbidden
  | serverNotFound
  | nodeNotFound
  | imageNotFound
  | crashed
  | editFailed (payload : EditPayload)
  | success (payload : EditPayload) (server : Server)
deriving Repr, DecidableEq

/-- JS `{...a, ...b}` on env objects, as observed through key lookup: keys
of `a` keep their position with `b`'s value when overridden, new keys of `b`
are appended. -/
def jsSpread (a b : List (String × String)) : List (String × String) :=
  a.map (fun kv => (kv.1, (envLookup b kv.1).getD kv.2))
    ++ b.filter (fun kv => (envLookup a kv.1).isNone)

/-- The edit-route env merge: spread the server's existing env under the
caller's, then fill in image defaults for keys still undefined. -/
def mergeEnvEdit (serverEnv newEnv imageEnvs : List (String × String)) :
    List (String × String) :=
  let merged := jsSpread serverEnv newEnv
  merged ++ imageEnvs.filter (fun kv => (envLookup merged kv.1).isNone)

/-- The shared tail of the edit route once the image is resolved. -/
def editCore (st : State) (server : Server) (image : Image) (req : EditReq)
    (penv : String → Option String) (remote : Option String) :
    State × EditOutcome :=
  let mergedEnv := mergeEnvEdit server.env req.env image.envs
  let files0 := if req.files.isEmpty then image.files else req.files
  let resolvedFiles := resolveFiles files0 mergedEnv penv
  let payload : EditPayload :=
    { idt := server.idt, dockerimage := image.dockerImage, env := mergedEnv,
      name := jsOrS req.name server.name, ram := jsOrS req.ram server.ram,
      core := jsOrS req.core server.core, disk := jsOrS req.disk server.disk,
      port := server.port, files := resolvedFiles }
  match remote with
  | none => (st, .editFailed payload)
  | some containerId =>
    let server' := { server with
      name := payload.name, ram := payload.ram, core := payload.core,
      disk := payload.disk, env := mergedEnv, imageId := image.id,
      containerId := containerId }
    -- `server.port = server.port` in the source: the stored port is kept
    let st1 := putServer st server'
    let st2 : State :=
      match getUser st1 server.userId with
      | none => st1
      | some user =>
        let userServers' := user.servers.map
          (fun s => if s.id == server.id then server' else s)
        putUser st1 { user with servers := userServers' }
    (st2, .success payload server')

/-- `POST /admin/edit/:serverId`.  The node is resolved by the snapshot ip
(a missing snapshot crashes at `server.node.ip`); an explicitly supplied
`imageId` that resolves to nothing is a 404, while a dangling
`server.imageId` crashes at `image.envs`.  The caller-supplied `port` field
is never read. -/
def editServer (st : State) (session : Option String) (serverId : String)
    (req : EditReq) (penv : String → Option String)
    (remote : Option String) : State × EditOutcome :=
  match adminGate st session with
  | .redirectLogin => (st, .redirectLogin)
  | .forbidden => (st, .forbidden)
  | .ok _ =>
    match getServerRec st serverId with
    | none => (st, .serverNotFound)
    | some server =>
      match server.node with
      | none => (st, .crashed)
      | some snap =>
        match st.nodes.find? (fun e => e.2.ip == snap.ip) with
        | none => (st, .nodeNotFound)
        | some _nodeEntry =>
          if req.imageId != "" then
            match getImage st req.imageId with
            | none => (st, .imageNotFound)
            | some image => editCore st server image req penv remote
          else
            match getImage st server.imageId with
            | none => (st, .crashed)
            | some image => editCore st server image req penv remote

/-! Realtime relay (`src/modules/websocket.js`). -/

/-- What the websocket handler does before/at the point of opening the
node-facing connection. -/
inductive WsOutcome
  | closed (code : Nat) (reason : String)
  | crashed
  | relay (nodeIp : String) (nodePort : Nat) (authKey : String)
      (subscribeEvent : String) (taskId : String)
deriving Repr, DecidableEq

/-- The authorization prefix shared verbatim by the console and stats
handlers: no session actor closes `1008 Unauthorized`; a missing server or
an actor that is not the stored owner closes `1008 Forbidden`; a present
server with a dangling actor record throws at `user.id` (the `!serverData`
short-circuit has already failed); an unresolvable node closes `1008 "Node
not found"`.  Only when everything passes is the node socket opened, with an
auth frame carrying the node key and a subscribe frame naming the stable
task identifier `idt`. -/
def wsHandle (st : State) (session : Option String) (id : String)
    (subscribeEvent : String) : WsOutcome :=
  match session with
  | none => .closed 1008 "Unauthorized"
  | some uid =>
    if uid = "" then .closed 1008 "Unauthorized"
    else
      match getServerRec st id with
      | none => .closed 1008 "Forbidden"
      | some serverData =>
        match getUser st uid with
        | none => .crashed
        | some user =>
          if serverData.userId != user.id then .closed 1008 "Forbidden"
          else
            match serverData.node with
            | none => .closed 1008 "Node not found"
            | some snap =>
              match st.nodes.find? (fun e => e.2.ip == snap.ip) with
              | none => .closed 1008 "Node not found"
              | some (_, node) =>
                .relay node.ip node.port node.key subscribeEvent
                  serverData.idt

/-- `app.ws("/console/:id")`: subscribes with a `logs` frame. -/
def consoleWs (st : State) (session : Option String) (id : String) :
    WsOutcome :=
  wsHandle st session id "logs"

/-- `app.ws("/stats/:id")`: subscribes with a `stats` frame. -/
def statsWs (st : State) (session : Option String) (id : String) :
    WsOutcome :=
  wsHandle st session id "stats"

/-- Shorthand for replacing a node record's allocation list. -/
def withAllocations (n : NodeRec) (l : List Allocation) : NodeRec :=
  { n with allocations := l }

/-! The primary-allocation invariant of claim C2. -/

/-- How many allocations of a node are owned by `sid` with role
`"primary"`. -/
def primaryOwnedCount (n : NodeRec) (sid : String) : Nat :=
  (n.allocations.filter (fun a =>
    a.type == "primary" && a.allocationOwnedto == some sid)).length

/-- At most one allocation per (server, node) pair has role primary. -/
def AtMostOnePrimary (st : State) : Prop :=
  ∀ e ∈ st.nodes, ∀ sid : String, primaryOwnedCount e.2 sid ≤ 1

/-- Executable check of `AtMostOnePrimary`: only owner ids actually present
need checking (an absent id owns nothing, so its count is 0). -/
def atMostOnePrimaryB (st : State) : Bool :=
  st.nodes.all (fun e => e.2.allocations.all (fun a =>
    match a.allocationOwnedto with
    | none => true
    | some sid => decide (primaryOwnedCount e.2 sid ≤ 1)))

instance : DecidablePred AtMostOnePrimary := fun st =>
  decidable_of_iff (atMostOnePrimaryB st = true)
    (by
      unfold atMostOnePrimaryB AtMostOnePrimary
      rw [List.all_eq_true]
      constructor
      · intro h e he sid
        by_cases hc : ∃ a ∈ e.2.allocations, a.allocationOwnedto = some sid
        · obtain ⟨a, ha, hown⟩ := hc
          have h2 := List.all_eq_true.mp (h e he) a ha
          rw [hown] at h2
          exact of_decide_eq_true h2
        · have hzero : primaryOwnedCount e.2 sid = 0 := by
            unfold primaryOwnedCount
            rw [List.length_eq_zero, List.filter_eq_nil_iff]
            intro a ha
            intro hcontra
            apply hc
            refine ⟨a, ha, ?_⟩
            have := (Bool.and_eq_true _ _).mp hcontra
            exact eq_of_beq this.2
          omega
      · intro h e he
        rw [List.all_eq_true]
        intro a _
        cases hown : a.allocationOwnedto with
        | none => rfl
        | some sid => exact decide_eq_true (h e he sid))

/-! Concrete fixtures used by the witness and counterexample theorems. -/

/-- An admin user fixture. -/
def wAdminUser : User := { id := "adm", admin := true }

/-- A node fixture with an empty allocation list. -/
def wC5Node : NodeRec :=
  { name := "node-a", ip := "10.0.0.5", port := 9000, key := "k" }

/-- A state fixture for the allocation-range witness. -/
def wC5State : State :=
  { nodes := [("n1", wC5Node)], users := [wAdminUser] }

/-- A deterministic id generator standing in for `crypto.randomUUID`. -/
def wMkId : Nat → String := fun k => String.append "alloc-" (toString k)

/-- Claim C2 counterexample fixture: an allocation on port `0`, already
claimed as primary by server `s1` (reachable: server create against an
admin-added port-0 allocation stores `server.port = 0`). -/
def cex2Alloc0 : Allocation :=
  { id := "a0", ip := "10.0.0.5", port := 0, type := "primary",
    allocationOwnedto := some "s1" }

/-- Claim C2 counterexample fixture: a free allocation on port 100. -/
def cex2Alloc1 : Allocation := { id := "a1", ip := "10.0.0.5", port := 100 }

/-- Claim C2 counterexample fixture node. -/
def cex2Node : NodeRec :=
  { name := "node-a", ip := "10.0.0.5", port := 9000, key := "k",
    allocations := [cex2Alloc0, cex2Alloc1] }

/-- Claim C2 counterexample fixture server: owns the port-0 primary, so its
stored port is `0` — falsy in JS. -/
def cex2Server : Server :=
  { id := "s1", userId := "u1",
    node := some { id := "n1", ip := "10.0.0.5", name := "node-a" },
    allocationId := "a0", port := some 0, ports := some [0], idt := "t1" }

/-- Claim C2 counterexample fixture owner. -/
def cex2User : User := { id := "u1", servers := [cex2Server] }

/-- Claim C2 counterexample state (the admin user is present so that the
admin-gated create route can also be exercised on this state). -/
def cex2State : State :=
  { nodes := [("n1", cex2Node)], servers := [cex2Server],
    users := [cex2User, wAdminUser] }

/-- An image fixture with one declared env variable and one file template. -/
def wImage : Image :=
  { id := "img", dockerImage := "docker/x", envs := [("FOO", "def")],
    files := [{ name := "name-of-file", url := "http://host/file" }] }

/-- A non-admin target-owner user fixture. -/
def wOwner : User := { id := "own" }

/-- A free allocation fixture. -/
def wAllocFree : Allocation := { id := "al1", ip := "10.9.9.9", port := 25565 }

/-- A node fixture holding one free allocation. -/
def wCreateNode : NodeRec :=
  { name := "cn", ip := "10.9.9.9", port := 9000, key := "k",
    allocations := [wAllocFree] }

/-- A state fixture on which server create fully validates. -/
def wCreateState : State :=
  { nodes := [("cn1", wCreateNode)], servers := [],
    users := [wAdminUser, wOwner], images := [wImage] }

/-- A create request fixture against `wCreateState`. -/
def wCreateReq : CreateReq :=
  { imageId := "img", nodeId := "cn1", allocationId := "al1", name := "srv",
    userId := "own", env := [("FOO", "bar")] }

/-- A server fixture with a truthy stored port, for the amended C2 witness. -/
def w2Server : Server :=
  { id := "s2", userId := "u2",
    node := some { id := "n2", ip := "10.0.0.6", name := "node-b" },
    port := some 200, ports := some [200], idt := "t2" }

/-- A free allocation fixture on the second node. -/
def w2Alloc : Allocation := { id := "b1", ip := "10.0.0.6", port := 300 }

/-- The second node fixture. -/
def w2Node : NodeRec :=
  { name := "node-b", ip := "10.0.0.6", port := 9000, key := "k2",
    allocations := [w2Alloc] }

/-- The owner of `w2Server`. -/
def w2User : User := { id := "u2", servers := [w2Server] }

/-- State fixture for the amended C2 network-add witness. -/
def w2State : State :=
  { nodes := [("n2", w2Node)], servers := [w2Server], users := [w2User] }

/-- Claim C3 counterexample fixture: a server whose embedded node snapshot
matches no node record (stale after its node vanished). -/
def cex3Server : Server :=
  { id := "s3", userId := "u3",
    node := some { id := "nX", ip := "9.9.9.9", name := "ghost" },
    idt := "t3" }

/-- Claim C3 counterexample owner. -/
def cex3User : User := { id := "u3", servers := [cex3Server] }

/-- Claim C3 counterexample state: no nodes at all. -/
def cex3State : State :=
  { nodes := [], servers := [cex3Server], users := [cex3User, wAdminUser] }

/-- Claim C3 witness fixture: an owned allocation next to a free one. -/
def w3AllocOwned : Allocation :=
  { id := "c1", ip := "10.0.0.7", port := 400, type := "primary",
    allocationOwnedto := some "s4" }

/-- Claim C3 witness fixture: a free allocation kept free. -/
def w3AllocFree : Allocation := { id := "c2", ip := "10.0.0.7", port := 401 }

/-- Claim C3 witness node. -/
def w3Node : NodeRec :=
  { name := "node-c", ip := "10.0.0.7", port := 9000, key := "k3",
    allocations := [w3AllocOwned, w3AllocFree] }

/-- Claim C3 witness server. -/
def w3Server : Server :=
  { id := "s4", userId := "u4",
    node := some { id := "n3", ip := "10.0.0.7", name := "node-c" },
    port := some 400, idt := "t4" }

/-- Claim C3 witness owner. -/
def w3User : User := { id := "u4", servers := [w3Server] }

/-- Claim C3 witness state. -/
def w3State : State :=
  { nodes := [("n3", w3Node)], servers := [w3Server],
    users := [w3User, wAdminUser] }

/-! Predicates used to state the node-delete cascade (claim C4).  The cleanup
loop rewrites allocation lists but never node keys or ips, never creates an
ownership reference, and only removes servers; the three predicates below
name exactly those facts. -/

/-- Two states agree on the key/ip shape of the node table. -/
def NodesShapeEq (st0 st1 : State) : Prop :=
  st1.nodes.map (fun e => (e.1, e.2.ip)) = st0.nodes.map (fun e => (e.1, e.2.ip))

/-- Every ownership reference in `st1` already existed in `st0` on the node
with the same table key. -/
def OwnerTrace (st0 st1 : State) : Prop :=
  ∀ e1 ∈ st1.nodes, ∀ a1 ∈ e1.2.allocations, ∀ x : String,
    a1.allocationOwnedto = some x →
    ∃ e ∈ st0.nodes, e.1 = e1.1 ∧
      ∃ a ∈ e.2.allocations, a.allocationOwnedto = some x

/-- No record in the servers table carries this id. -/
def NoServerId (st : State) (x : String) : Prop :=
  ∀ s ∈ st.servers, s.id ≠ x

/-- No allocation on any node is owned by this id. -/
def NoOwner (st : State) (x : String) : Prop :=
  ∀ e ∈ st.nodes, ∀ a ∈ e.2.allocations, a.allocationOwnedto ≠ some x

/-- Claim C4 counterexample: a stale allocation on ANOTHER node still owned
by the server being cleaned up. -/
def cex4Alloc : Allocation :=
  { id := "d1", ip := "2.2.2.2", port := 500, type := "primary",
    allocationOwnedto := some "s5" }

/-- Claim C4 counterexample: the node being deleted (no allocations). -/
def cex4NodeA : NodeRec :=
  { name := "alpha", ip := "1.1.1.1", port := 9001, key := "ka",
    allocations := [] }

/-- Claim C4 counterexample: an unrelated node holding the stale reference. -/
def cex4NodeB : NodeRec :=
  { name := "beta", ip := "2.2.2.2", port := 9002, key := "kb",
    allocations := [cex4Alloc] }

/-- Claim C4 counterexample server, bound to node alpha by its snapshot. -/
def cex4Server : Server :=
  { id := "s5", userId := "u5",
    node := some { id := "n4", ip := "1.1.1.1", name := "alpha" },
    idt := "t5" }

/-- Claim C4 counterexample owner. -/
def cex4User : User := { id := "u5", servers := [cex4Server] }

/-- Claim C4 counterexample state. -/
def cex4State : State :=
  { nodes := [("n4", cex4NodeA), ("n5", cex4NodeB)], servers := [cex4Server],
    users := [cex4User, wAdminUser] }

/-- Claim C4 witness allocation, owned by the server on its own node. -/
def w4Alloc : Allocation :=
  { id := "d2", ip := "3.3.3.3", port := 600, type := "primary",
    allocationOwnedto := some "s6" }

/-- Claim C4 witness node. -/
def w4Node : NodeRec :=
  { name := "gamma", ip := "3.3.3.3", port := 9003, key := "kc",
    allocations := [w4Alloc] }

/-- Claim C4 witness server. -/
def w4Server : Server :=
  { id := "s6", userId := "u6",
    node := some { id := "n6", ip := "3.3.3.3", name := "gamma" },
    port := some 600, idt := "t6" }

/-- Claim C4 witness owner. -/
def w4User : User := { id := "u6", servers := [w4Server] }

/-- Claim C4 witness state. -/
def w4State : State :=
  { nodes := [("n6", w4Node)], servers := [w4Server],
    users := [w4User, wAdminUser] }

/-! Shorthands for the audit-write shapes of claim C8 (definitionally equal
to the corresponding subterms of `addAuditLog`). -/

/-- The entry object built by `addAuditLog`. -/
def mkAuditEntry (entryId userId action ts : String) : AuditEntry :=
  { id := entryId, userId := userId, action := action, ts := ts }

/-- A server with its audit log replaced. -/
def withAuditLogs (s : Server) (logs : List AuditEntry) : Server :=
  { s with auditLogs := logs }

/-- The per-user replication step of `addAuditLog`: patch the first embedded
copy matched by server id, leave other users untouched. -/
def auditFanOut (sid : String) (logs : List AuditEntry) (u : User) : User :=
  if u.servers.any (fun s => s.id == sid) then
    let servers' := updateFirst (fun s => s.id == sid)
      (fun s => { s with auditLogs := logs }) u.servers
    { u with servers := servers' }
  else u

/-- A state with its users table replaced. -/
def withUsers (st : State) (us : List User) : State :=
  { st with users := us }

/-- Claim C9 witness state: the delete fixture extended with an image so the
edit route reaches the node payload. -/
def w9State : State :=
  { nodes := [("n3", w3Node)], servers := [w3Server],
    users := [w3User, wAdminUser], images := [wImage] }

/-- The server patch written by the network-remove route: new port list,
re-derived primary port, fresh container id — everything else kept. -/
def removePatch (server : Server) (ports' : List Nat) (port' : Option Nat)
    (cid : String) : Server :=
  { server with ports := some ports', port := port', containerId := cid }

/-- A user record with its embedded server list replaced. -/
def withServers (u : User) (l : List Server) : User :=
  { u with servers := l }

end Panel

namespace Panel

/-! Theorems.  Everything below is a statement about the definitions above;
no further definitions except the concrete witness fixtures, which are
declared here as plain definitions referenced by the final theorems. -/

theorem replaceFirstOrAppend_cons_pos {p : α → Bool} {x : α} (v : α)
    (xs : List α) (hx : p x = true) :
    replaceFirstOrAppend p v (x :: xs) = v :: xs := by
  simp [replaceFirstOrAppend, hx]

theorem replaceFirstOrAppend_cons_neg {p : α → Bool} {x : α} (v : α)
    (xs : List α) (hx : p x = false) :
    replaceFirstOrAppend p v (x :: xs) = x :: replaceFirstOrAppend p v xs := by
  simp [replaceFirstOrAppend, hx]

theorem find?_replaceFirstOrAppend_pos (p : α → Bool) (v : α) (l : List α)
    (hv : p v = true) :
    (replaceFirstOrAppend p v l).find? p = some v := by
  induction l with
  | nil => simp [replaceFirstOrAppend, List.find?, hv]
  | cons x xs ih =>
    cases hx : p x with
    | true =>
      rw [replaceFirstOrAppend_cons_pos v xs hx]
      simp [List.find?_cons, hv]
    | false =>
      rw [replaceFirstOrAppend_cons_neg v xs hx]
      rw [List.find?_cons, hx]
      exact ih

theorem find?_replaceFirstOrAppend_other (p q : α → Bool) (v : α) (l : List α)
    (hpq : ∀ x, q x = true → p x = false) (hv : q v = false) :
    (replaceFirstOrAppend p v l).find? q = l.find? q := by
  induction l with
  | nil => simp [replaceFirstOrAppend, List.find?, hv]
  | cons x xs ih =>
    cases hx : p x with
    | true =>
      have hqx : q x = false := by
        cases hq : q x with
        | false => rfl
        | true => rw [hpq x hq] at hx; exact absurd hx (by simp)
      rw [replaceFirstOrAppend_cons_pos v xs hx]
      rw [List.find?_cons, List.find?_cons, hqx, hv]
    | false =>
      rw [replaceFirstOrAppend_cons_neg v xs hx]
      rw [List.find?_cons, List.find?_cons]
      cases hq : q x with
      | true => rfl
      | false => exact ih

theorem mem_replaceFirstOrAppend (p : α → Bool) (v : α) (l : List α) :
    ∀ x ∈ replaceFirstOrAppend p v l, x = v ∨ x ∈ l := by
  induction l with
  | nil => intro x hx; simp [replaceFirstOrAppend] at hx; exact Or.inl hx
  | cons y ys ih =>
    intro x hx
    cases hy : p y with
    | true =>
      rw [replaceFirstOrAppend_cons_pos v ys hy] at hx
      rcases List.mem_cons.mp hx with h | h
      · exact Or.inl h
      · exact Or.inr (List.mem_cons_of_mem _ h)
    | false =>
      rw [replaceFirstOrAppend_cons_neg v ys hy] at hx
      rcases List.mem_cons.mp hx with h | h
      · exact Or.inr (by simp [h])
      · rcases ih x h with h2 | h2
        · exact Or.inl h2
        · exact Or.inr (List.mem_cons_of_mem _ h2)

theorem updateFirst_of_find? (p : α → Bool) (f : α → α) :
    ∀ {l : List α} {a : α}, l.find? p = some a →
    ∃ l1 l2, l = l1 ++ a :: l2 ∧ (∀ b ∈ l1, p b = false) ∧
      updateFirst p f l = l1 ++ f a :: l2 := by
  intro l
  induction l with
  | nil => intro a h; simp [List.find?] at h
  | cons x xs ih =>
    intro a h
    rw [List.find?_cons] at h
    cases hx : p x with
    | true =>
      rw [hx] at h
      simp only [Option.some.injEq] at h
      subst h
      exact ⟨[], xs, by simp, by simp, by simp [updateFirst, hx]⟩
    | false =>
      rw [hx] at h
      obtain ⟨l1, l2, heq, hforall, hupd⟩ := ih h
      refine ⟨x :: l1, l2, by simp [heq], ?_, ?_⟩
      · intro b hb
        rcases List.mem_cons.mp hb with h1 | h1
        · rw [h1]; exact hx
        · exact hforall b h1
      · simp [updateFirst, hx, hupd]

theorem getNode_putNode (st : State) (k : String) (n : NodeRec) :
    getNode (putNode st k n) k = some n := by
  unfold getNode putNode
  simp only
  rw [find?_replaceFirstOrAppend_pos _ _ _ (by simp)]
  rfl

theorem getNode_putNode_ne (st : State) (k k2 : String) (n : NodeRec)
    (h : k2 ≠ k) :
    getNode (putNode st k n) k2 = getNode st k2 := by
  unfold getNode putNode
  simp only
  have heq := find?_replaceFirstOrAppend_other
    (fun (e : String × NodeRec) => e.1 == k)
    (fun (e : String × NodeRec) => e.1 == k2) (k, n) st.nodes
    (by
      intro x hx
      have hx2 : x.1 = k2 := eq_of_beq hx
      simp [hx2, h])
    (by simp; exact fun hc => h hc.symm)
  rw [heq]

theorem getServerRec_putServer (st : State) (s : Server) :
    getServerRec (putServer st s) s.id = some s := by
  unfold getServerRec putServer
  simp only
  exact find?_replaceFirstOrAppend_pos _ _ _ (by simp)

theorem getUser_putUser (st : State) (u : User) :
    getUser (putUser st u) u.id = some u := by
  unfold getUser putUser
  simp only
  exact find?_replaceFirstOrAppend_pos _ _ _ (by simp)

theorem getUser_putUser_ne (st : State) (u : User) (k2 : String)
    (h : k2 ≠ u.id) :
    getUser (putUser st u) k2 = getUser st k2 := by
  unfold getUser putUser
  simp only
  have heq := find?_replaceFirstOrAppend_other
    (fun (x : User) => x.id == u.id)
    (fun (x : User) => x.id == k2) u st.users
    (by
      intro x hx
      have hx2 : x.id = k2 := eq_of_beq hx
      simp [hx2, h])
    (by simp; exact fun hc => h hc.symm)
  rw [heq]

theorem takeWord_append : ∀ cs : List Char, (takeWord cs).1 ++ (takeWord cs).2 = cs
  | [] => rfl
  | c :: cs => by
    by_cases h : isWordChar c = true
    · simp only [takeWord, h, if_pos]
      have ih := takeWord_append cs
      cases heq : takeWord cs with
      | mk w r => simp only [heq] at ih ⊢; simp [← ih]
    · simp only [takeWord, h]
      simp

theorem envLookup_mergeEnvCreate (imageEnvs callerEnv : List (String × String))
    (k : String) :
    envLookup (mergeEnvCreate imageEnvs callerEnv) k
      = (envLookup imageEnvs k).map (fun d => (envLookup callerEnv k).getD d) := by
  induction imageEnvs with
  | nil => rfl
  | cons kv tl ih =>
    simp only [mergeEnvCreate, List.map_cons, envLookup, List.find?_cons]
    by_cases h : (kv.1 == k) = true
    · have hk : kv.1 = k := eq_of_beq h
      subst hk
      simp [envLookup]
    · simp only [h]
      simpa [envLookup, mergeEnvCreate] using ih

theorem takeWord_append_brace (v rest : List Char)
    (hv : ∀ c ∈ v, isWordChar c = true) :
    takeWord (v ++ '}' :: rest) = (v, '}' :: rest) := by
  induction v with
  | nil =>
    have : isWordChar '}' = false := by decide
    simp [takeWord, this]
  | cons c cs ih =>
    have hc : isWordChar c = true := hv c (by simp)
    have ihh := ih (fun c hmem => hv c (by simp [hmem]))
    simp [takeWord, hc, ihh]

theorem tryVar_token (v rest : List Char) (hne : v ≠ [])
    (hv : ∀ c ∈ v, isWordChar c = true) :
    tryVar ('{' :: (v ++ '}' :: rest)) = some (v, rest) := by
  simp only [tryVar, if_pos rfl, takeWord_append_brace v rest hv]
  have hisEmpty : v.isEmpty = false := by
    cases v with
    | nil => exact absurd rfl hne
    | cons a as => rfl
  simp [hisEmpty]

theorem interpScan_token (env penv : String → Option String)
    (v rest : List Char) (hne : v ≠ [])
    (hv : ∀ c ∈ v, isWordChar c = true) :
    interpScan env penv ('$' :: '{' :: (v ++ '}' :: rest))
      = ((env (String.mk v)).getD ((penv (String.mk v)).getD "")).data
          ++ interpScan env penv rest := by
  rw [interpScan]
  rw [if_pos rfl]
  split
  · rename_i v2 rest2 heq
    rw [tryVar_token v rest hne hv] at heq
    have h1 : v2 = v := by
      have := (Option.some.injEq _ _).mp heq
      exact (((Prod.mk.injEq _ _ _ _).mp this).1).symm
    have h2 : rest2 = rest := by
      have := (Option.some.injEq _ _).mp heq
      exact (((Prod.mk.injEq _ _ _ _).mp this).2).symm
    rw [h1, h2]
  · rename_i heq
    rw [tryVar_token v rest hne hv] at heq
    exact absurd heq (by simp)

theorem replaceFirstOrAppend_idem (p : α → Bool) (v : α) (hv : p v = true) :
    ∀ l : List α,
    replaceFirstOrAppend p v (replaceFirstOrAppend p v l)
      = replaceFirstOrAppend p v l := by
  intro l
  induction l with
  | nil => simp [replaceFirstOrAppend, hv]
  | cons x xs ih =>
    cases hx : p x with
    | true =>
      rw [replaceFirstOrAppend_cons_pos v xs hx]
      rw [replaceFirstOrAppend_cons_pos v xs hv]
    | false =>
      rw [replaceFirstOrAppend_cons_neg v xs hx]
      rw [replaceFirstOrAppend_cons_neg v (replaceFirstOrAppend p v xs) hx]
      rw [ih]

theorem chunkedFoldl_eq_foldl (f : β → α → β) (bs : Nat) :
    ∀ l : List α, ∀ acc, chunkedFoldl f bs acc l = l.foldl f acc := by
  have main : ∀ n : Nat, ∀ l : List α, l.length ≤ n → ∀ acc,
      chunkedFoldl f bs acc l = l.foldl f acc := by
    intro n
    induction n with
    | zero =>
      intro l hl acc
      have : l = [] := List.length_eq_zero.mp (Nat.le_zero.mp hl)
      subst this
      simp [chunkedFoldl]
    | succ n ih =>
      intro l hl acc
      cases l with
      | nil => simp [chunkedFoldl]
      | cons x xs =>
        rw [chunkedFoldl]
        have hlen : (xs.drop (bs - 1)).length ≤ n := by
          have h1 := List.length_drop (bs - 1) xs
          simp only [List.length_cons] at hl
          omega
        rw [ih _ hlen]
        rw [← List.foldl_append]
        have hsplit : (x :: xs.take (bs - 1)) ++ xs.drop (bs - 1) = x :: xs := by
          simp [List.take_append_drop]
        rw [hsplit]
  intro l acc
  exact main l.length l (le_refl _) acc

theorem allocStep_skip (ip : String) (domain : Option String) (now : Nat)
    (mkId : Nat → String) (al ad : List Allocation) (q : Nat)
    (hany : (al.any (fun a => a.ip == ip && a.port == q)) = true) :
    allocStep ip domain now mkId (al, ad) q = (al, ad) := by
  unfold allocStep
  rw [if_pos (by simpa using hany)]

theorem allocStep_add (ip : String) (domain : Option String) (now : Nat)
    (mkId : Nat → String) (al ad : List Allocation) (q : Nat)
    (hany : (al.any (fun a => a.ip == ip && a.port == q)) = false) :
    allocStep ip domain now mkId (al, ad) q
      = (al ++ [{ id := mkId ad.length, ip := ip, domain := domain,
                  port := q, createdAt := now }],
         ad ++ [{ id := mkId ad.length, ip := ip, domain := domain,
                  port := q, createdAt := now }]) := by
  unfold allocStep
  rw [if_neg (by simp [hany])]

theorem allocStep_fold_delta (ip : String) (domain : Option String)
    (now : Nat) (mkId : Nat → String) :
    ∀ (ports : List Nat) (al ad : List Allocation),
    ∃ delta,
      (ports.foldl (allocStep ip domain now mkId) (al, ad)).1 = al ++ delta ∧
      (ports.foldl (allocStep ip domain now mkId) (al, ad)).2 = ad ++ delta := by
  intro ports
  induction ports with
  | nil => intro al ad; exact ⟨[], by simp, by simp⟩
  | cons q rest ih =>
    intro al ad
    rw [List.foldl_cons]
    by_cases hany : (al.any (fun a => a.ip == ip && a.port == q)) = true
    · rw [allocStep_skip ip domain now mkId al ad q hany]
      exact ih al ad
    · rw [allocStep_add ip domain now mkId al ad q
        (Bool.eq_false_iff.mpr hany)]
      obtain ⟨delta, h1, h2⟩ :=
        ih (al ++ [{ id := mkId ad.length, ip := ip, domain := domain,
                     port := q, createdAt := now }])
           (ad ++ [{ id := mkId ad.length, ip := ip, domain := domain,
                     port := q, createdAt := now }])
      refine ⟨{ id := mkId ad.length, ip := ip, domain := domain, port := q,
                createdAt := now } :: delta, ?_, ?_⟩
      · rw [h1]; simp
      · rw [h2]; simp

theorem allocStep_fold_mono (ip : String) (domain : Option String)
    (now : Nat) (mkId : Nat → String) :
    ∀ (ports : List Nat) (al ad : List Allocation), ∀ x ∈ al,
      x ∈ (ports.foldl (allocStep ip domain now mkId) (al, ad)).1 := by
  intro ports al ad x hx
  obtain ⟨delta, h1, _⟩ := allocStep_fold_delta ip domain now mkId ports al ad
  rw [h1]
  exact List.mem_append_left _ hx

theorem allocStep_fold_covers (ip : String) (domain : Option String)
    (now : Nat) (mkId : Nat → String) :
    ∀ (ports : List Nat) (al ad : List Allocation), ∀ p ∈ ports,
    ∃ a ∈ (ports.foldl (allocStep ip domain now mkId) (al, ad)).1,
      a.ip = ip ∧ a.port = p := by
  intro ports
  induction ports with
  | nil => intro al ad p hp; simp at hp
  | cons q rest ih =>
    intro al ad p hp
    rw [List.foldl_cons]
    rcases List.mem_cons.mp hp with hpq | hprest
    · subst hpq
      by_cases hany : (al.any (fun a => a.ip == ip && a.port == p)) = true
      · rw [allocStep_skip ip domain now mkId al ad p hany]
        obtain ⟨a, ha, hprop⟩ := List.any_eq_true.mp hany
        have hip : a.ip = ip := eq_of_beq ((Bool.and_eq_true _ _).mp hprop).1
        have hport : a.port = p := by
          have := ((Bool.and_eq_true _ _).mp hprop).2
          exact eq_of_beq this
        exact ⟨a, allocStep_fold_mono ip domain now mkId rest al ad a ha,
               hip, hport⟩
      · rw [allocStep_add ip domain now mkId al ad p
          (Bool.eq_false_iff.mpr hany)]
        refine ⟨{ id := mkId ad.length, ip := ip, domain := domain, port := p,
                  createdAt := now }, ?_, rfl, rfl⟩
        apply allocStep_fold_mono
        simp
    · by_cases hany : (al.any (fun a => a.ip == ip && a.port == q)) = true
      · rw [allocStep_skip ip domain now mkId al ad q hany]
        exact ih al ad p hprest
      · rw [allocStep_add ip domain now mkId al ad q
          (Bool.eq_false_iff.mpr hany)]
        exact ih _ _ p hprest

theorem allocStep_fold_added (ip : String) (domain : Option String)
    (now : Nat) (mkId : Nat → String) :
    ∀ (ports : List Nat) (al ad : List Allocation),
    ∀ x ∈ (ports.foldl (allocStep ip domain now mkId) (al, ad)).2,
      x ∈ ad ∨ (x.ip = ip ∧ x.port ∈ ports ∧
        al.any (fun b => b.ip == ip && b.port == x.port) = false) := by
  intro ports
  induction ports with
  | nil => intro al ad x hx; exact Or.inl (by simpa using hx)
  | cons q rest ih =>
    intro al ad x hx
    rw [List.foldl_cons] at hx
    by_cases hany : (al.any (fun a => a.ip == ip && a.port == q)) = true
    · rw [allocStep_skip ip domain now mkId al ad q hany] at hx
      rcases ih al ad x hx with h | ⟨h1, h2, h3⟩
      · exact Or.inl h
      · exact Or.inr ⟨h1, List.mem_cons_of_mem _ h2, h3⟩
    · rw [allocStep_add ip domain now mkId al ad q
        (Bool.eq_false_iff.mpr hany)] at hx
      rcases ih _ _ x hx with h | ⟨h1, h2, h3⟩
      · rcases List.mem_append.mp h with h4 | h4
        · exact Or.inl h4
        · have hx4 := List.mem_singleton.mp h4
          subst hx4
          refine Or.inr ⟨rfl, by simp, by simpa using hany⟩
      · refine Or.inr ⟨h1, List.mem_cons_of_mem _ h2, ?_⟩
        rw [List.any_append] at h3
        exact (Bool.or_eq_false_iff.mp h3).1

theorem allocStep_fold_skip_all (ip : String) (domain : Option String)
    (now : Nat) (mkId : Nat → String) :
    ∀ (ports : List Nat) (al ad : List Allocation),
    (∀ p ∈ ports, al.any (fun a => a.ip == ip && a.port == p) = true) →
    ports.foldl (allocStep ip domain now mkId) (al, ad) = (al, ad) := by
  intro ports
  induction ports with
  | nil => intro al ad _; rfl
  | cons q rest ih =>
    intro al ad hall
    rw [List.foldl_cons]
    rw [allocStep_skip ip domain now mkId al ad q (hall q (by simp))]
    exact ih al ad (fun p hp => hall p (List.mem_cons_of_mem _ hp))

theorem adminGate_putNode (st : State) (k : String) (n : NodeRec)
    (session : Option String) :
    adminGate (putNode st k n) session = adminGate st session := by
  cases session with
  | none => rfl
  | some uid => rfl

theorem putNode_putNode (st : State) (k : String) (n : NodeRec) :
    putNode (putNode st k n) k n = putNode st k n := by
  unfold putNode
  simp only
  rw [replaceFirstOrAppend_idem _ _ (by simp)]

/-- Claim C5: for allocation add with a range `start-end`, every integer in
`[start, end]` inclusive ends up with an allocation `(ip, p)` on the node;
non-numeric bounds (JS `NaN`) or `start > end` fail with the invalid-range
error and change nothing; `(ip, port)` pairs already present are silently
skipped, so repeating the identical range add changes nothing — the
allocation list stays exactly the set produced by the first call and the
response reports an empty added set; the fold underlying the insertion is
independent of the batch size; and the response reports the added list and
its length. -/
theorem alloc_range_expansion
    (st : State) (session : Option String) (nodeId ip : String)
    (domain : Option String) (s : String) (mkId : Nat → String) (now : Nat)
    (uid : String) (node : NodeRec) (p0 p1 : String)
    (hauth : adminGate st session = .ok uid)
    (hnode : getNode st nodeId = some node)
    (hip : ip ≠ "")
    (hs : s ≠ "")
    (hdash : s.data.contains '-' = true)
    (hp0 : (jsSplitDash s).head? = some p0)
    (hp1 : ((jsSplitDash s).drop 1).head? = some p1) :
    ((jsNum p0 = none ∨ jsNum p1 = none) →
      addAllocations st session nodeId ip domain (some (.str s)) mkId now
        = (st, .invalidRange)) ∧
    (∀ start stop, jsNum p0 = some start → jsNum p1 = some stop →
      (start > stop →
        addAllocations st session nodeId ip domain (some (.str s)) mkId now
          = (st, .invalidRange)) ∧
      (start ≤ stop →
        ∃ added,
          addAllocations st session nodeId ip domain (some (.str s)) mkId now
            = (putNode st nodeId
                 (withAllocations node (node.allocations ++ added)),
               .rangeAdded added added.length) ∧
          (∀ p, start ≤ p → p ≤ stop →
            ∃ a ∈ node.allocations ++ added, a.ip = ip ∧ a.port = p) ∧
          (∀ x ∈ added, x.ip = ip ∧ start ≤ x.port ∧ x.port ≤ stop ∧
            (node.allocations.any fun b => b.ip == ip && b.port == x.port)
              = false) ∧
          (∀ mkId2 now2,
            addAllocations
              (putNode st nodeId
                (withAllocations node (node.allocations ++ added)))
              session nodeId ip domain (some (.str s)) mkId2 now2
              = (putNode st nodeId
                   (withAllocations node (node.allocations ++ added)),
                 .rangeAdded [] 0)) ∧
          (∀ bs, chunkedFoldl (allocStep ip domain now mkId) bs
              (node.allocations, []) (List.range' start (stop + 1 - start))
            = chunkedFoldl (allocStep ip domain now mkId) 150
              (node.allocations, []) (List.range' start (stop + 1 - start))))) := by
  have hval : ¬(ip = "" ∨ portFalsy (some (.str s)) = true) := by
    intro hcon
    rcases hcon with h | h
    · exact hip h
    · exact hs (by simpa [portFalsy] using h)
  constructor
  · intro hnan
    unfold addAllocations
    rw [hauth]
    simp only
    rw [hnode]
    simp only
    rw [if_neg hval]
    simp only [hdash, if_pos]
    rw [hp0, hp1]
    simp only
    rcases hnan with h | h
    · rw [h]
    · rw [h]
      cases jsNum p0 <;> rfl
  · intro start stop hstart hstop
    constructor
    · intro hgt
      unfold addAllocations
      rw [hauth]
      simp only
      rw [hnode]
      simp only
      rw [if_neg hval]
      simp only [hdash, if_pos]
      rw [hp0, hp1]
      simp only
      rw [hstart, hstop]
      simp only
      rw [if_pos hgt]
    · intro hle
      set ports := List.range' start (stop + 1 - start) with hportsdef
      have hfold := chunkedFoldl_eq_foldl
        (allocStep ip domain now mkId) 150 ports (node.allocations, [])
      obtain ⟨delta, hd1, hd2⟩ :=
        allocStep_fold_delta ip domain now mkId ports node.allocations []
      refine ⟨delta, ?_, ?_, ?_, ?_, ?_⟩
      · unfold addAllocations
        rw [hauth]
        simp only
        rw [hnode]
        simp only
        rw [if_neg hval]
        simp only [hdash, if_pos]
        rw [hp0, hp1]
        simp only
        rw [hstart, hstop]
        simp only
        rw [if_neg (by omega)]
        rw [← hportsdef, hfold]
        have h2 : (ports.foldl (allocStep ip domain now mkId)
            (node.allocations, [])).2 = delta := by simpa using hd2
        have h1 : (ports.foldl (allocStep ip domain now mkId)
            (node.allocations, [])).1 = node.allocations ++ delta := hd1
        rw [h1, h2]
        rfl
      · intro p hp1b hp2b
        have hmem : p ∈ ports := by
          rw [hportsdef]
          rw [List.mem_range'_1]
          omega
        obtain ⟨a, ha, hprop⟩ := allocStep_fold_covers ip domain now mkId
          ports node.allocations [] p hmem
        rw [hd1] at ha
        exact ⟨a, ha, hprop⟩
      · intro x hx
        have hx2 : x ∈ (ports.foldl (allocStep ip domain now mkId)
            (node.allocations, [])).2 := by
          rw [hd2]; simpa using hx
        rcases allocStep_fold_added ip domain now mkId ports
          node.allocations [] x hx2 with h | ⟨hipx, hportx, hanyx⟩
        · simp at h
        · have hb := List.mem_range'_1.mp (by rw [← hportsdef]; exact hportx)
          exact ⟨hipx, hb.1, by omega, hanyx⟩
      · intro mkId2 now2
        have hcov : ∀ p ∈ ports,
            ((node.allocations ++ delta).any
              (fun a => a.ip == ip && a.port == p)) = true := by
          intro p hp
          obtain ⟨a, ha, hipa, hporta⟩ := allocStep_fold_covers ip domain now
            mkId ports node.allocations [] p hp
          rw [hd1] at ha
          refine List.any_eq_true.mpr ⟨a, ha, ?_⟩
          simp [hipa, hporta]
        unfold addAllocations
        rw [adminGate_putNode, hauth]
        simp only
        rw [getNode_putNode]
        simp only
        rw [if_neg hval]
        simp only [hdash, if_pos]
        rw [hp0, hp1]
        simp only
        rw [hstart, hstop]
        simp only
        rw [if_neg (by omega)]
        rw [chunkedFoldl_eq_foldl]
        rw [← hportsdef]
        have hskip := allocStep_fold_skip_all ip domain now2 mkId2 ports
          (node.allocations ++ delta) [] hcov
        show (putNode (putNode st nodeId
            (withAllocations node (node.allocations ++ delta))) nodeId
            (withAllocations (withAllocations node (node.allocations ++ delta))
              ((ports.foldl (allocStep ip domain now2 mkId2)
                ((withAllocations node (node.allocations ++ delta)).allocations,
                 [])).1)), _) = _
        rw [show (withAllocations node (node.allocations ++ delta)).allocations
            = node.allocations ++ delta from rfl]
        rw [hskip]
        rw [show withAllocations (withAllocations node
            (node.allocations ++ delta)) (node.allocations ++ delta)
            = withAllocations node (node.allocations ++ delta) from rfl]
        rw [putNode_putNode]
        simp
      · intro bs
        rw [chunkedFoldl_eq_foldl, chunkedFoldl_eq_foldl]

theorem putServer_nodes (st : State) (s : Server) :
    (putServer st s).nodes = st.nodes := rfl

theorem putUser_nodes (st : State) (u : User) :
    (putUser st u).nodes = st.nodes := rfl

theorem addAuditLog_nodes (st : State) (serverId userId action entryId ts :
    String) :
    (addAuditLog st serverId userId action entryId ts).1.nodes = st.nodes := by
  unfold addAuditLog
  split
  · rfl
  · cases getServerRec st serverId with
    | none =>
      cases st.servers.find? (fun s => s.id == serverId || s.idt == serverId)
        <;> rfl
    | some server => rfl

theorem getNode_mem {st : State} {id : String} {node : NodeRec}
    (h : getNode st id = some node) : ∃ e ∈ st.nodes, e.2 = node := by
  unfold getNode at h
  cases hf : st.nodes.find? (fun e => e.1 == id) with
  | none => rw [hf] at h; simp at h
  | some e =>
    rw [hf] at h
    have h2 : e.2 = node := by
      simpa using h
    exact ⟨e, List.mem_of_find?_eq_some hf, h2⟩

theorem find?_mem_pair {l : List (String × NodeRec)} {p : String × NodeRec → Bool}
    {k : String} {n : NodeRec} (h : l.find? p = some (k, n)) : (k, n) ∈ l :=
  List.mem_of_find?_eq_some h

/-- Witness for claim C5 at the concrete range `"100-102"` on a fresh node. -/
theorem alloc_range_expansion_witness :
    ∃ added,
      addAllocations wC5State (some "adm") "n1" "10.0.0.5" none
          (some (.str "100-102")) wMkId 7
        = (putNode wC5State "n1"
             (withAllocations wC5Node (wC5Node.allocations ++ added)),
           .rangeAdded added added.length) ∧
      (∀ p, 100 ≤ p → p ≤ 102 →
        ∃ a ∈ wC5Node.allocations ++ added, a.ip = "10.0.0.5" ∧ a.port = p) ∧
      (∀ x ∈ added, x.ip = "10.0.0.5" ∧ 100 ≤ x.port ∧ x.port ≤ 102 ∧
        (wC5Node.allocations.any fun b =>
          b.ip == "10.0.0.5" && b.port == x.port) = false) ∧
      (∀ mkId2 now2,
        addAllocations
          (putNode wC5State "n1"
            (withAllocations wC5Node (wC5Node.allocations ++ added)))
          (some "adm") "n1" "10.0.0.5" none (some (.str "100-102")) mkId2
          now2
          = (putNode wC5State "n1"
               (withAllocations wC5Node (wC5Node.allocations ++ added)),
             .rangeAdded [] 0)) ∧
      (∀ bs, chunkedFoldl (allocStep "10.0.0.5" none 7 wMkId) bs
          (wC5Node.allocations, []) (List.range' 100 (102 + 1 - 100))
        = chunkedFoldl (allocStep "10.0.0.5" none 7 wMkId) 150
          (wC5Node.allocations, []) (List.range' 100 (102 + 1 - 100))) :=
  ((alloc_range_expansion wC5State (some "adm") "n1" "10.0.0.5" none
      "100-102" wMkId 7 "adm" wC5Node "100" "102" rfl rfl (by decide)
      (by decide) (by decide) rfl rfl).2 100 102 rfl rfl).2 (by omega)

theorem putNode_nodes (st : State) (k : String) (n : NodeRec) :
    (putNode st k n).nodes
      = replaceFirstOrAppend (fun e => e.1 == k) (k, n) st.nodes := rfl

theorem primaryOwnedCount_eq_filter (n : NodeRec) (sid : String) :
    primaryOwnedCount n sid = (n.allocations.filter (fun a =>
      a.type == "primary" && a.allocationOwnedto == some sid)).length := rfl

theorem filter_updateFirst_of_others_false
    (pred q : α → Bool) (f : α → α) {l : List α} {a : α}
    (hfind : l.find? pred = some a)
    (hall : ∀ b ∈ l, q b = false)
    (hfa : q (f a) = true) :
    (List.filter q (updateFirst pred f l)).length = 1 := by
  obtain ⟨l1, l2, hdec, _, hupd⟩ := updateFirst_of_find? pred f hfind
  rw [hupd, List.filter_append, List.filter_cons, if_pos hfa]
  have h1 : l1.filter q = [] := by
    rw [List.filter_eq_nil_iff]
    intro b hb hq
    rw [hall b (by rw [hdec]; exact List.mem_append_left _ hb)] at hq
    exact absurd hq (by simp)
  have h2 : l2.filter q = [] := by
    rw [List.filter_eq_nil_iff]
    intro b hb hq
    rw [hall b (by
      rw [hdec]
      exact List.mem_append_right _ (List.mem_cons_of_mem _ hb))] at hq
    exact absurd hq (by simp)
  rw [h1, h2]
  rfl

theorem filter_updateFirst_unchanged
    (pred q : α → Bool) (f : α → α) {l : List α} {a : α}
    (hfind : l.find? pred = some a)
    (hfa : q (f a) = false) (ha : q a = false) :
    (List.filter q (updateFirst pred f l)).length
      = (List.filter q l).length := by
  obtain ⟨l1, l2, hdec, _, hupd⟩ := updateFirst_of_find? pred f hfind
  rw [hupd, List.filter_append, List.filter_cons, if_neg (by simp [hfa])]
  conv_rhs => rw [hdec]
  rw [List.filter_append, List.filter_cons, if_neg (by simp [ha])]

theorem createServer_preserves_primary
    (st : State) (session : Option String) (req : CreateReq)
    (freshId : String) (now : Nat) (penv : String → Option String)
    (resp : CreateResp) (uid : String) (node : NodeRec)
    (allocation : Allocation) (image : Image) (targetUser : User)
    (hauth : adminGate st session = .ok uid)
    (hval : ¬(req.imageId = "" ∨ req.nodeId = "" ∨ req.allocationId = "" ∨
      req.name = "" ∨ req.userId = ""))
    (hnode : getNode st req.nodeId = some node)
    (hfind : node.allocations.find? (fun a => a.id == req.allocationId)
      = some allocation)
    (hfree : allocation.allocationOwnedto = none)
    (himage : getImage st req.imageId = some image)
    (huser : getUser st req.userId = some targetUser)
    (hfresh : ∀ e ∈ st.nodes, ∀ a ∈ e.2.allocations,
      a.allocationOwnedto ≠ some freshId)
    (hinv : AtMostOnePrimary st) :
    AtMostOnePrimary
      (createServer st session req freshId now penv (some resp)).1 := by
  obtain ⟨e0, he0, he0eq⟩ := getNode_mem hnode
  unfold createServer
  rw [hauth]
  simp only
  rw [if_neg hval, hnode]
  simp only
  rw [hfind]
  simp only
  rw [if_neg (by simp [hfree])]
  rw [himage]
  simp only
  rw [huser]
  simp only
  intro e he sid
  rw [putUser_nodes, putServer_nodes, putNode_nodes] at he
  rcases mem_replaceFirstOrAppend _ _ _ e he with heq | hmem
  · subst heq
    show (List.filter
        (fun a => a.type == "primary" && a.allocationOwnedto == some sid)
        (updateFirst (fun a => a.id == req.allocationId)
          (fun a =>
            { a with type := "primary", allocationOwnedto := some freshId })
          node.allocations)).length ≤ 1
    by_cases hsid : sid = freshId
    · subst hsid
      rw [filter_updateFirst_of_others_false _ _ _ hfind]
      · intro b hb
        have := hfresh e0 he0 b (by rw [he0eq]; exact hb)
        simp only [Bool.and_eq_false_iff]
        right
        simpa using this
      · simp
    · rw [filter_updateFirst_unchanged _ _ _ hfind]
      · have hcount := hinv e0 he0 sid
        rw [he0eq, primaryOwnedCount_eq_filter] at hcount
        exact hcount
      · simp only [Bool.and_eq_false_iff]
        right
        simp only [beq_eq_false_iff_ne, ne_eq, Option.some.injEq]
        exact fun hc => hsid hc.symm
      · simp only [Bool.and_eq_false_iff]
        right
        rw [hfree]
        rfl
  · exact hinv e hmem sid

theorem addAllocation_preserves_primary
    (st : State) (uid id : String) (port : Nat)
    (containerId entryId ts : String) (user : User) (server : Server)
    (nodeKey : String) (node : NodeRec) (allocation : Allocation)
    (huid : uid ≠ "")
    (huser : getUser st uid = some user)
    (hserver : getServerForUser st uid id = some server)
    (hsusp : server.suspended = false)
    (hsnap : server.node.isSome = true)
    (hnodef : st.nodes.find?
      (fun e => e.2.ip == (server.node.map (·.ip)).getD "")
      = some (nodeKey, node))
    (hfind : node.allocations.find? (fun a => a.port == port)
      = some allocation)
    (hfree : allocation.allocationOwnedto = none)
    (hcheck : (allocation.type == "primary" &&
      node.allocations.any (fun a => a.type == "primary" &&
        a.allocationOwnedto == some server.id)) = false)
    (hcond : jsTruthyNum server.port = true ∨ allocation.type = "primary")
    (hinv : AtMostOnePrimary st) :
    AtMostOnePrimary
      (addAllocationToServer st (some uid) id port (some containerId)
        entryId ts).1 := by
  have hmemnode := find?_mem_pair hnodef
  unfold addAllocationToServer
  simp only
  rw [if_neg huid, huser]
  simp only
  rw [hserver]
  simp only
  rw [if_neg (by simp [hsusp])]
  have hnotnone : server.node.isNone = false := by
    cases hn : server.node with
    | none => rw [hn] at hsnap; exact absurd hsnap (by simp)
    | some _ => rfl
  rw [if_neg (by simp [hnotnone])]
  rw [hnodef]
  simp only
  rw [hfind]
  simp only
  rw [if_neg (by simp [hfree])]
  rw [if_neg (by simp [hcheck])]
  simp only
  intro e he sid
  rw [addAuditLog_nodes, putUser_nodes, putServer_nodes, putNode_nodes] at he
  rcases mem_replaceFirstOrAppend _ _ _ e he with heq | hmem
  · subst heq
    show (List.filter
        (fun a => a.type == "primary" && a.allocationOwnedto == some sid)
        (updateFirst (fun a => a.port == port)
          (fun a =>
            { a with allocationOwnedto := some server.id,
                     type := if !jsTruthyNum server.port ||
                       a.type == "primary" then "primary" else a.type })
          node.allocations)).length ≤ 1
    by_cases htype : allocation.type = "primary"
    · have hany : node.allocations.any (fun a => a.type == "primary" &&
          a.allocationOwnedto == some server.id) = false := by
        have hbeq : (allocation.type == "primary") = true := by simp [htype]
        rw [hbeq] at hcheck
        simpa using hcheck
      by_cases hsid : sid = server.id
      · subst hsid
        rw [filter_updateFirst_of_others_false _ _ _ hfind]
        · intro b hb
          have := List.any_eq_false.mp hany b hb
          simpa using this
        · simp [htype]
      · rw [filter_updateFirst_unchanged _ _ _ hfind]
        · have hcount := hinv (nodeKey, node) hmemnode sid
          rw [primaryOwnedCount_eq_filter] at hcount
          exact hcount
        · simp only [Bool.and_eq_false_iff]
          right
          simp only [beq_eq_false_iff_ne, ne_eq, Option.some.injEq]
          exact fun hc => hsid hc.symm
        · simp only [Bool.and_eq_false_iff]
          right
          rw [hfree]
          rfl
    · have htruthy : jsTruthyNum server.port = true := by
        rcases hcond with h | h
        · exact h
        · exact absurd h htype
      have hbeq : (allocation.type == "primary") = false := by
        simp [htype]
      rw [filter_updateFirst_unchanged _ _ _ hfind]
      · have hcount := hinv (nodeKey, node) hmemnode sid
        rw [primaryOwnedCount_eq_filter] at hcount
        exact hcount
      · simp only [Bool.and_eq_false_iff]
        left
        simp [htruthy, hbeq]
      · simp only [Bool.and_eq_false_iff]
        left
        exact hbeq
  · exact hinv e hmem sid

/-- Counterexample to claim C2 as stated: starting from a state where the
one-primary-per-(server, node) invariant holds (server `s1` owns exactly one
primary, the port-0 allocation, and its stored port is the JS-falsy `0`), a
successful `addAllocationToServer` on free allocation port 100 promotes the
new allocation to `"primary"` as well (the `!server.port` branch), leaving
TWO allocations with role primary owned by `s1` on the same node. -/
theorem primary_invariant_counterexample :
    AtMostOnePrimary cex2State ∧
    ¬ AtMostOnePrimary
        (addAllocationToServer cex2State (some "u1") "s1" 100 (some "c9")
          "e1" "ts1").1 := by
  constructor
  · decide
  · decide

/-- Claim C2, amended.  (1) On both ownership-assignment paths an allocation
already owned by some server cannot be claimed: server create answers the
conflict error, and the network add answers the allocation-taken redirect,
each leaving the state untouched (the code rejects any owned allocation,
which subsumes "owned by a different server").  (2) The at-most-one-primary-
per-(server, node) invariant is preserved by create when the generated
server id is fresh, and by `addAllocationToServer` PROVIDED the acting
server's stored port is truthy (non-null and non-zero) or the claimed
allocation already carries the primary role; when the stored port is the
JS-falsy `0` (or `null`) and the allocation's role is not primary, the route
promotes the new allocation to primary unconditionally and a second primary
can result — see the counterexample. -/
theorem allocation_claim_conflict_and_primary_amended :
    (∀ st session req freshId now penv remote uid node allocation sid,
        adminGate st session = .ok uid →
        ¬(req.imageId = "" ∨ req.nodeId = "" ∨ req.allocationId = "" ∨
          req.name = "" ∨ req.userId = "") →
        getNode st req.nodeId = some node →
        node.allocations.find? (fun a => a.id == req.allocationId)
          = some allocation →
        allocation.allocationOwnedto = some sid →
        createServer st session req freshId now penv remote
          = (st, .allocationClaimed)) ∧
    (∀ st uid id port remote entryId ts user server nodeKey node allocation
        sid,
        uid ≠ "" →
        getUser st uid = some user →
        getServerForUser st uid id = some server →
        server.suspended = false →
        server.node.isSome = true →
        st.nodes.find?
          (fun e => e.2.ip == (server.node.map (·.ip)).getD "")
          = some (nodeKey, node) →
        node.allocations.find? (fun a => a.port == port) = some allocation →
        allocation.allocationOwnedto = some sid →
        addAllocationToServer st (some uid) id port remote entryId ts
          = (st, .allocationTaken)) ∧
    (∀ st session req freshId now penv resp uid node allocation image
        targetUser,
        adminGate st session = .ok uid →
        ¬(req.imageId = "" ∨ req.nodeId = "" ∨ req.allocationId = "" ∨
          req.name = "" ∨ req.userId = "") →
        getNode st req.nodeId = some node →
        node.allocations.find? (fun a => a.id == req.allocationId)
          = some allocation →
        allocation.allocationOwnedto = none →
        getImage st req.imageId = some image →
        getUser st req.userId = some targetUser →
        (∀ e ∈ st.nodes, ∀ a ∈ e.2.allocations,
          a.allocationOwnedto ≠ some freshId) →
        AtMostOnePrimary st →
        AtMostOnePrimary
          (createServer st session req freshId now penv (some resp)).1) ∧
    (∀ st uid id port containerId entryId ts user server nodeKey node
        allocation,
        uid ≠ "" →
        getUser st uid = some user →
        getServerForUser st uid id = some server →
        server.suspended = false →
        server.node.isSome = true →
        st.nodes.find?
          (fun e => e.2.ip == (server.node.map (·.ip)).getD "")
          = some (nodeKey, node) →
        node.allocations.find? (fun a => a.port == port) = some allocation →
        allocation.allocationOwnedto = none →
        (allocation.type == "primary" &&
          node.allocations.any (fun a => a.type == "primary" &&
            a.allocationOwnedto == some server.id)) = false →
        (jsTruthyNum server.port = true ∨ allocation.type = "primary") →
        AtMostOnePrimary st →
        AtMostOnePrimary
          (addAllocationToServer st (some uid) id port (some containerId)
            entryId ts).1) := by
  refine ⟨?_, ?_, ?_, ?_⟩
  · intro st session req freshId now penv remote uid node allocation sid
      hauth hval hnode hfind howned
    unfold createServer
    rw [hauth]
    simp only
    rw [if_neg hval, hnode]
    simp only
    rw [hfind]
    simp only
    rw [if_pos (by rw [howned]; rfl)]
  · intro st uid id port remote entryId ts user server nodeKey node
      allocation sid huid huser hserver hsusp hsnap hnodef hfind howned
    unfold addAllocationToServer
    simp only
    rw [if_neg huid, huser]
    simp only
    rw [hserver]
    simp only
    rw [if_neg (by simp [hsusp])]
    have hnotnone : server.node.isNone = false := by
      cases hn : server.node with
      | none => rw [hn] at hsnap; exact absurd hsnap (by simp)
      | some _ => rfl
    rw [if_neg (by simp [hnotnone])]
    rw [hnodef]
    simp only
    rw [hfind]
    simp only
    rw [if_pos (by rw [howned]; rfl)]
  · intro st session req freshId now penv resp uid node allocation image
      targetUser hauth hval hnode hfind hfree himage huser hfresh hinv
    exact createServer_preserves_primary st session req freshId now penv
      resp uid node allocation image targetUser hauth hval hnode hfind
      hfree himage huser hfresh hinv
  · intro st uid id port containerId entryId ts user server nodeKey node
      allocation huid huser hserver hsusp hsnap hnodef hfind hfree hcheck
      hcond hinv
    exact addAllocation_preserves_primary st uid id port containerId
      entryId ts user server nodeKey node allocation huid huser hserver
      hsusp hsnap hnodef hfind hfree hcheck hcond hinv

/-- Witness for the amended claim C2 at concrete states: a create against an
owned allocation conflicts; a network add against an owned allocation is
rejected; a fully validated create with a fresh id preserves the one-primary
invariant; a network add with a truthy stored port preserves it. -/
theorem allocation_claim_amended_witness :
    (createServer cex2State (some "adm")
        { imageId := "img0", nodeId := "n1", allocationId := "a0",
          name := "x", userId := "u1" } "sv0" 0 (fun _ => none) none
      = (cex2State, .allocationClaimed)) ∧
    (addAllocationToServer cex2State (some "u1") "s1" 0 (some "cid") "e" "t"
      = (cex2State, .allocationTaken)) ∧
    AtMostOnePrimary
      (createServer wCreateState (some "adm") wCreateReq "sv1" 3
        (fun _ => none) (some { containerId := "c1", idt := "t9" })).1 ∧
    AtMostOnePrimary
      (addAllocationToServer w2State (some "u2") "s2" 300 (some "c2") "e2"
        "t2").1 := by
  refine ⟨?_, ?_, ?_, ?_⟩
  · exact allocation_claim_conflict_and_primary_amended.1 cex2State
      (some "adm") _ "sv0" 0 (fun _ => none) none "adm" cex2Node cex2Alloc0
      "s1" rfl (by decide) rfl rfl rfl
  · exact allocation_claim_conflict_and_primary_amended.2.1 cex2State "u1"
      "s1" 0 (some "cid") "e" "t" cex2User cex2Server "n1" cex2Node
      cex2Alloc0 "s1" (by decide) rfl rfl rfl rfl rfl rfl rfl
  · exact allocation_claim_conflict_and_primary_amended.2.2.1 wCreateState
      (some "adm") wCreateReq "sv1" 3 (fun _ => none)
      { containerId := "c1", idt := "t9" } "adm" wCreateNode wAllocFree
      wImage wOwner rfl (by decide) rfl rfl rfl rfl rfl (by decide)
      (by decide)
  · exact allocation_claim_conflict_and_primary_amended.2.2.2 w2State "u2"
      "s2" 300 "c2" "e2" "t2" w2User w2Server "n2" w2Node w2Alloc
      (by decide) rfl rfl rfl rfl rfl rfl rfl (by decide)
      (Or.inl (by decide)) (by decide)

theorem adminGate_ok_elim {st : State} {session : Option String}
    {uid : String} (h : adminGate st session = .ok uid) :
    session = some uid ∧ uid ≠ "" ∧
    ∃ u, getUser st uid = some u ∧ u.admin = true := by
  cases session with
  | none => simp [adminGate] at h
  | some v =>
    simp only [adminGate] at h
    by_cases hv : v = ""
    · rw [if_pos hv] at h; exact absurd h (by simp)
    · rw [if_neg hv] at h
      cases hu : getUser st v with
      | none => rw [hu] at h; exact absurd h (by simp)
      | some u =>
        rw [hu] at h
        simp only at h
        by_cases hadm : u.admin = true
        · rw [if_pos hadm] at h
          have huid : v = uid := by
            have := h
            simp only [AuthResult.ok.injEq] at this
            exact this
          subst huid
          exact ⟨rfl, hv, u, hu, hadm⟩
        · rw [if_neg hadm] at h; exact absurd h (by simp)

theorem replaceFirstOrAppend_key_unique (keyOf : α → String) (k : String)
    (v : α) (hv : keyOf v = k) :
    ∀ l : List α, (l.map keyOf).Nodup →
    ∀ u ∈ replaceFirstOrAppend (fun x => keyOf x == k) v l,
      keyOf u = k → u = v := by
  intro l
  induction l with
  | nil =>
    intro _ u hu _
    simpa [replaceFirstOrAppend] using hu
  | cons x xs ih =>
    intro hnodup u hu huk
    have hnodup2 : (¬ keyOf x ∈ xs.map keyOf) ∧ (xs.map keyOf).Nodup := by
      rw [List.map_cons, List.nodup_cons] at hnodup
      exact hnodup
    cases px : (keyOf x == k) with
    | true =>
      rw [replaceFirstOrAppend_cons_pos v xs px] at hu
      rcases List.mem_cons.mp hu with h | h
      · exact h
      · exfalso
        apply hnodup2.1
        rw [eq_of_beq px]
        rw [← huk]
        exact List.mem_map_of_mem keyOf h
    | false =>
      rw [replaceFirstOrAppend_cons_neg v xs px] at hu
      rcases List.mem_cons.mp hu with h | h
      · exfalso
        rw [← h] at px
        rw [huk] at px
        simp at px
      · exact ih hnodup2.2 u h huk

theorem find?_filter_ne_none (l : List Server) (id : String) :
    (l.filter (fun s => s.id != id)).find? (fun s => s.id == id) = none := by
  rw [List.find?_eq_none]
  intro x hx
  have := (List.mem_filter.mp hx).2
  simpa using this

/-- Counterexample to claim C3 as stated: `delete` on an existing server
whose embedded node snapshot resolves to no node record answers 404 BEFORE
any cleanup — the canonical record (and everything else) survives, although
the claim promises removal for every delete of an existing server even when
the remote call fails. -/
theorem delete_server_counterexample :
    deleteServer cex3State (some "adm") "s3" true
      = (cex3State, .nodeNotFound) ∧
    getServerRec cex3State "s3" = some cex3Server := by
  constructor
  · rfl
  · rfl

theorem releaseAllocs_no_owner (sid : String) (l : List Allocation) :
    ∀ a ∈ releaseAllocs sid l, a.allocationOwnedto ≠ some sid := by
  intro a ha
  obtain ⟨b, _, hba⟩ := List.mem_map.mp ha
  by_cases hb : (b.allocationOwnedto == some sid) = true
  · rw [if_pos hb] at hba
    rw [← hba]
    simp
  · rw [if_neg hb] at hba
    rw [← hba]
    simpa using hb

theorem releaseAllocs_resets (sid : String) (l : List Allocation) :
    ∀ b ∈ l, b.allocationOwnedto = some sid →
      ({ b with allocationOwnedto := none, type := "" } : Allocation)
        ∈ releaseAllocs sid l := by
  intro b hb hown
  have hstep : (fun a : Allocation =>
      if a.allocationOwnedto == some sid then
        { a with allocationOwnedto := none, type := "" }
      else a) b = { b with allocationOwnedto := none, type := "" } := by
    simp only
    rw [hown]
    simp
  rw [← hstep]
  exact List.mem_map_of_mem _ hb

theorem getUser_putNode (st : State) (k : String) (n : NodeRec)
    (uid : String) : getUser (putNode st k n) uid = getUser st uid := rfl

theorem adminGate_users_eq {st1 st2 : State} (h : st1.users = st2.users)
    (session : Option String) :
    adminGate st1 session = adminGate st2 session := by
  cases session with
  | none => rfl
  | some uid =>
    unfold adminGate getUser
    rw [h]

theorem self_mem_replaceFirstOrAppend (p : α → Bool) (v : α) :
    ∀ l : List α, v ∈ replaceFirstOrAppend p v l := by
  intro l
  induction l with
  | nil => simp [replaceFirstOrAppend]
  | cons x xs ih =>
    cases px : p x with
    | true => rw [replaceFirstOrAppend_cons_pos v xs px]; simp
    | false =>
      rw [replaceFirstOrAppend_cons_neg v xs px]
      exact List.mem_cons_of_mem _ ih

theorem adminGate_ok_intro (st : State) (uid : String) (w : User)
    (hne : uid ≠ "") (hw : getUser st uid = some w) (hadm : w.admin = true) :
    adminGate st (some uid) = .ok uid := by
  simp only [adminGate]
  rw [if_neg hne, hw]
  simp [hadm]

theorem deleteServer_notFound (st : State) (session : Option String)
    (id uid : String) (remoteOk : Bool)
    (hauth : adminGate st session = .ok uid)
    (hnone : getServerRec st id = none) :
    deleteServer st session id remoteOk = (st, .serverNotFound) := by
  unfold deleteServer
  rw [hauth]
  simp only
  rw [hnone]

/-- Claim C3, amended: for a delete call on an existing server WHOSE NODE
REFERENCE RESOLVES to a node record (by snapshot ip or id over the node
list), and provided allocations owned by the server live only on that
resolved node (the code frees only there), the outcome is independent of the
remote delete result: the canonical record is removed, the owner's embedded
copies are removed, every allocation owned by the server is released (its
role reset to `""`), and a repeated delete on the same id is an idempotent
NotFound that mutates nothing.  Without a resolvable node the route 404s
before any cleanup — see the counterexample. -/
theorem delete_server_amended
    (st : State) (session : Option String) (id uid : String)
    (server : Server) (snap : NodeSnapshot) (nodeKey : String)
    (node : NodeRec)
    (hauth : adminGate st session = .ok uid)
    (hserver : getServerRec st id = some server)
    (hsnap : server.node = some snap)
    (hnodef : st.nodes.find? (fun e => e.2.ip == snap.ip || e.1 == snap.id)
      = some (nodeKey, node))
    (hnodesnodup : (st.nodes.map (·.1)).Nodup)
    (husersnodup : (st.users.map (·.id)).Nodup)
    (hlocal : ∀ e ∈ st.nodes, ∀ a ∈ e.2.allocations,
      a.allocationOwnedto = some server.id → e.1 = nodeKey) :
    ∀ remoteOk,
      (deleteServer st session id remoteOk).2 = .deleted ∧
      getServerRec (deleteServer st session id remoteOk).1 id = none ∧
      (∀ s2 ∈ (deleteServer st session id remoteOk).1.servers,
        s2.id ≠ id) ∧
      (∀ u2 ∈ (deleteServer st session id remoteOk).1.users,
        u2.id = server.userId → ∀ s2 ∈ u2.servers, s2.id ≠ server.id) ∧
      (∀ e ∈ (deleteServer st session id remoteOk).1.nodes,
        ∀ a ∈ e.2.allocations, a.allocationOwnedto ≠ some server.id) ∧
      (∀ b ∈ node.allocations, b.allocationOwnedto = some server.id →
        ∃ e ∈ (deleteServer st session id remoteOk).1.nodes, e.1 = nodeKey ∧
          ({ b with allocationOwnedto := none, type := "" } : Allocation)
            ∈ e.2.allocations) ∧
      deleteServer (deleteServer st session id remoteOk).1 session id
          remoteOk
        = ((deleteServer st session id remoteOk).1, .serverNotFound) := by
  intro remoteOk
  obtain ⟨hsess, huidne, u, hu, hadm⟩ := adminGate_ok_elim hauth
  subst hsess
  have hfind2 : st.servers.find? (fun s => s.id == id) = some server :=
    hserver
  have hbeqkey : (server.id == id) = true := by
    have hp := List.find?_some hfind2
    simpa using hp
  have hkey : server.id = id := eq_of_beq hbeqkey
  have hrun : deleteServer st (some uid) id remoteOk
      = (let st1 := putNode st nodeKey (withAllocations node (releaseAllocs server.id node.allocations))
         let st2 : State :=
           match getUser st1 server.userId with
           | none => st1
           | some owner =>
             putUser st1 { owner with servers := owner.servers.filter (fun s => s.id != server.id) }
         ({ st2 with
            servers := st2.servers.filter (fun s => s.id != id) },
          .deleted)) := by
    unfold deleteServer
    rw [hauth]
    simp only
    rw [hserver]
    simp only
    rw [hsnap]
    simp only
    rw [hnodef]
    rfl
  rw [hrun]
  simp only
  cases howner : getUser st server.userId with
  | none =>
    rw [show getUser (putNode st nodeKey (withAllocations node (releaseAllocs server.id node.allocations))) server.userId
      = getUser st server.userId from rfl, howner]
    simp only
    refine ⟨trivial, ?_, ?_, ?_, ?_, ?_, ?_⟩
    · exact find?_filter_ne_none _ id
    · intro s2 hs2
      have hs2b : s2 ∈ st.servers.filter (fun s => s.id != id) := hs2
      have := (List.mem_filter.mp hs2b).2
      simpa using this
    · intro u2 hu2 hu2id s2 _
      exfalso
      have hn : st.users.find? (fun x => x.id == server.userId) = none :=
        howner
      have hnone := List.find?_eq_none.mp hn u2 (by simpa using hu2)
      simp [hu2id] at hnone
    · intro e he a ha
      have heb : e ∈ replaceFirstOrAppend (fun x => x.1 == nodeKey)
          (nodeKey, withAllocations node (releaseAllocs server.id node.allocations)) st.nodes := he
      rcases mem_replaceFirstOrAppend _ _ _ e heb with heq | hmem
      · subst heq
        exact releaseAllocs_no_owner server.id node.allocations a ha
      · intro hcon
        by_cases hk : e.1 = nodeKey
        · have hequ := replaceFirstOrAppend_key_unique (fun x => x.1)
            nodeKey
            (nodeKey, withAllocations node (releaseAllocs server.id node.allocations)) rfl st.nodes hnodesnodup e heb hk
          rw [hequ] at ha
          exact releaseAllocs_no_owner server.id node.allocations a ha hcon
        · exact hk (hlocal e hmem a ha hcon)
    · intro b hb hown
      refine ⟨(nodeKey, withAllocations node (releaseAllocs server.id node.allocations)), ?_, rfl, ?_⟩
      · exact self_mem_replaceFirstOrAppend _ _ st.nodes
      · exact releaseAllocs_resets server.id node.allocations b hb hown
    · refine deleteServer_notFound _ _ id uid remoteOk hauth ?_
      exact find?_filter_ne_none _ id
  | some owner =>
    rw [show getUser (putNode st nodeKey (withAllocations node (releaseAllocs server.id node.allocations))) server.userId
      = getUser st server.userId from rfl, howner]
    simp only
    have hownerfind : st.users.find? (fun x => x.id == server.userId)
        = some owner := howner
    have hownerid : owner.id = server.userId := by
      have hp := List.find?_some hownerfind
      exact eq_of_beq (by simpa using hp)
    refine ⟨trivial, ?_, ?_, ?_, ?_, ?_, ?_⟩
    · exact find?_filter_ne_none _ id
    · intro s2 hs2
      have hs2b : s2 ∈ st.servers.filter (fun s => s.id != id) := hs2
      have := (List.mem_filter.mp hs2b).2
      simpa using this
    · intro u2 hu2 hu2id s2 hs2
      have hu2b : u2 ∈ replaceFirstOrAppend (fun x => x.id == owner.id)
          { owner with servers := owner.servers.filter (fun s => s.id != server.id) }
          st.users := hu2
      have hu2eq := replaceFirstOrAppend_key_unique (fun x => x.id)
        owner.id
        { owner with servers := owner.servers.filter (fun s => s.id != server.id) }
        rfl st.users husersnodup u2 hu2b
        (by show u2.id = owner.id; rw [hu2id, hownerid])
      rw [hu2eq] at hs2
      have hs2b : s2 ∈ owner.servers.filter (fun s => s.id != server.id) :=
        hs2
      have := (List.mem_filter.mp hs2b).2
      simpa using this
    · intro e he a ha
      have heb : e ∈ replaceFirstOrAppend (fun x => x.1 == nodeKey)
          (nodeKey, withAllocations node (releaseAllocs server.id node.allocations)) st.nodes := he
      rcases mem_replaceFirstOrAppend _ _ _ e heb with heq | hmem
      · subst heq
        exact releaseAllocs_no_owner server.id node.allocations a ha
      · intro hcon
        by_cases hk : e.1 = nodeKey
        · have hequ := replaceFirstOrAppend_key_unique (fun x => x.1)
            nodeKey
            (nodeKey, withAllocations node (releaseAllocs server.id node.allocations)) rfl st.nodes hnodesnodup e heb hk
          rw [hequ] at ha
          exact releaseAllocs_no_owner server.id node.allocations a ha hcon
        · exact hk (hlocal e hmem a ha hcon)
    · intro b hb hown
      refine ⟨(nodeKey, withAllocations node (releaseAllocs server.id node.allocations)), ?_, rfl, ?_⟩
      · exact self_mem_replaceFirstOrAppend _ _ st.nodes
      · exact releaseAllocs_resets server.id node.allocations b hb hown
    · refine deleteServer_notFound _ _ id uid remoteOk ?_ ?_
      · by_cases hcase : uid = owner.id
        · have hadm2 : owner.admin = true := by
            have hx : getUser st uid = some owner := by
              rw [hcase, hownerid]
              exact howner
            rw [hu] at hx
            have hou : owner = u := by
              have := (Option.some.injEq _ _).mp hx
              exact this.symm
            rw [hou]
            exact hadm
          refine adminGate_ok_intro _ uid
            { owner with servers := owner.servers.filter (fun s => s.id != server.id) }
            huidne ?_ hadm2
          show getUser (putUser (putNode st nodeKey (withAllocations node (releaseAllocs server.id node.allocations)))
              { owner with servers := owner.servers.filter (fun s => s.id != server.id) }) uid
              = some { owner with servers := owner.servers.filter (fun s => s.id != server.id) }
          rw [hcase]
          exact getUser_putUser _ _
        · refine adminGate_ok_intro _ uid u huidne ?_ hadm
          show getUser (putUser (putNode st nodeKey (withAllocations node (releaseAllocs server.id node.allocations)))
              { owner with servers := owner.servers.filter (fun s => s.id != server.id) }) uid
              = some u
          have hgu : getUser (putUser (putNode st nodeKey (withAllocations node (releaseAllocs server.id node.allocations)))
              { owner with servers := owner.servers.filter (fun s => s.id != server.id) }) uid
              = getUser st uid :=
            getUser_putUser_ne _ _ uid hcase
          rw [hgu]
          exact hu
      · exact find?_filter_ne_none _ id

/-- Witness for the amended delete claim: on the concrete fixture the delete
with a FAILED remote call still reports deleted, removes the canonical
record, and a repeated delete is a NotFound no-op. -/
theorem delete_server_amended_witness :
    (deleteServer w3State (some "adm") "s4" false).2 = .deleted ∧
    getServerRec (deleteServer w3State (some "adm") "s4" false).1 "s4"
      = none ∧
    deleteServer (deleteServer w3State (some "adm") "s4" false).1
        (some "adm") "s4" false
      = ((deleteServer w3State (some "adm") "s4" false).1,
         .serverNotFound) := by
  have h := delete_server_amended w3State (some "adm") "s4" "adm" w3Server
    { id := "n3", ip := "10.0.0.7", name := "node-c" } "n3" w3Node
    rfl rfl rfl rfl (by decide) (by decide) (by decide) false
  exact ⟨h.1, h.2.1, h.2.2.2.2.2.2⟩

/-- Claim C1: when the remote create call fails, the whole create operation
persists nothing — the servers table, the users table (hence the owner's
embedded server list) and the nodes table (hence the allocation list) are the
ones of the initial state, so every allocation that was free stays free (not
owned, not primary).  This is proved unconditionally over all requests, which
in particular covers every request passing validation. -/
theorem create_remote_failure_persists_nothing
    (st : State) (session : Option String) (req : CreateReq)
    (freshId : String) (now : Nat) (penv : String → Option String) :
    (createServer st session req freshId now penv none).1 = st := by
  unfold createServer
  cases adminGate st session <;> simp only
  split
  · rfl
  · cases getNode st req.nodeId <;> simp only
    rename_i node
    cases node.allocations.find? (fun a => a.id == req.allocationId) <;>
      simp only
    rename_i allocation
    split
    · rfl
    · cases getImage st req.imageId <;> simp only
      cases getUser st req.userId <;> simp only

/-- Claim C6: for server create, (1) the effective environment maps each
image-declared variable to the caller-supplied value when present and
otherwise to its image default; (2) interpolation replaces each well-formed
token `(dollar){VAR}` by the merged-env value, falling back to the ambient
process environment, falling back to `""` (an unmatched variable hits the
final `""` fallback), textually and non-recursively — the substituted value
is emitted verbatim and scanning resumes after the token — and, being a
total function, it never throws; (3) the create route builds its node
payload with exactly this merged environment and resolves every file
template's `url` and `name` through this interpolation. -/
theorem create_env_merge_and_interpolation :
    (∀ imageEnvs callerEnv : List (String × String), ∀ k d,
        envLookup imageEnvs k = some d →
        envLookup (mergeEnvCreate imageEnvs callerEnv) k
          = some ((envLookup callerEnv k).getD d)) ∧
    (∀ env penv : String → Option String, ∀ v rest : List Char,
        v ≠ [] → (∀ c ∈ v, isWordChar c = true) →
        interpolateEnv (String.mk ('$' :: '{' :: (v ++ '}' :: rest))) env penv
          = ((env (String.mk v)).getD ((penv (String.mk v)).getD ""))
              ++ interpolateEnv (String.mk rest) env penv) ∧
    (∀ st session req freshId now penv uid node allocation image targetUser,
        adminGate st session = .ok uid →
        ¬(req.imageId = "" ∨ req.nodeId = "" ∨ req.allocationId = "" ∨
          req.name = "" ∨ req.userId = "") →
        getNode st req.nodeId = some node →
        node.allocations.find? (fun a => a.id == req.allocationId)
          = some allocation →
        allocation.allocationOwnedto = none →
        getImage st req.imageId = some image →
        getUser st req.userId = some targetUser →
        ∀ remote, ∃ payload,
          payload.env = mergeEnvCreate image.envs req.env ∧
          payload.files
            = resolveFiles image.files (mergeEnvCreate image.envs req.env)
                penv ∧
          ((remote = none ∧
              (createServer st session req freshId now penv remote).2
                = .deployFailed payload) ∨
           (∃ resp s2, remote = some resp ∧
              (createServer st session req freshId now penv remote).2
                = .success payload s2 ∧
              s2.env = mergeEnvCreate image.envs req.env))) := by
  refine ⟨?_, ?_, ?_⟩
  · intro imageEnvs callerEnv k d hfound
    rw [envLookup_mergeEnvCreate, hfound]
    rfl
  · intro env penv v rest hne hv
    apply String.ext
    show (interpolateEnv (String.mk ('$' :: '{' :: (v ++ '}' :: rest)))
        env penv).data = _
    have hs := interpScan_token env penv v rest hne hv
    simp only [interpolateEnv] at *
    rw [hs]
    simp [String.data_append]
  · intro st session req freshId now penv uid node allocation image
      targetUser hauth hval hnode hfind hfree himage huser remote
    unfold createServer
    rw [hauth]
    simp only
    rw [if_neg hval, hnode]
    simp only
    rw [hfind]
    simp only
    have hns : allocation.allocationOwnedto.isSome = false := by
      rw [hfree]; rfl
    rw [if_neg (by simp [hns])]
    rw [himage]
    simp only
    rw [huser]
    simp only
    cases remote with
    | none =>
      refine ⟨_, rfl, rfl, Or.inl ⟨rfl, rfl⟩⟩
    | some resp =>
      exact ⟨_, rfl, rfl, Or.inr ⟨resp, _, rfl, rfl, rfl⟩⟩

/-- Witness for claim C6: the merge instance `FOO` (caller `"bar"` over
default `"def"`), the interpolation instance on the token for `FOO`, and the
full create path on a concrete validating state. -/
theorem create_env_merge_witness :
    (envLookup (mergeEnvCreate [("FOO", "def")] [("FOO", "bar")]) "FOO"
      = some ((envLookup [("FOO", "bar")] "FOO").getD "def")) ∧
    (interpolateEnv (String.mk ('$' :: '{' :: (['F', 'O', 'O'] ++ '}' :: [])))
        (fun k => if k == "FOO" then some "bar" else none) (fun _ => none)
      = (((fun k => if k == "FOO" then some "bar" else none)
            (String.mk ['F', 'O', 'O'])).getD
          (((fun (_ : String) => (none : Option String))
            (String.mk ['F', 'O', 'O'])).getD ""))
        ++ interpolateEnv (String.mk [])
            (fun k => if k == "FOO" then some "bar" else none)
            (fun _ => none)) ∧
    (∃ payload : CreatePayload,
      payload.env = mergeEnvCreate wImage.envs wCreateReq.env ∧
      payload.files
        = resolveFiles wImage.files (mergeEnvCreate wImage.envs wCreateReq.env)
            (fun _ => none) ∧
      (((none : Option CreateResp) = none ∧
          (createServer wCreateState (some "adm") wCreateReq "sv1" 3
            (fun _ => none) none).2 = .deployFailed payload) ∨
       (∃ resp s2, (none : Option CreateResp) = some resp ∧
          (createServer wCreateState (some "adm") wCreateReq "sv1" 3
            (fun _ => none) none).2 = .success payload s2 ∧
          s2.env = mergeEnvCreate wImage.envs wCreateReq.env))) :=
  ⟨create_env_merge_and_interpolation.1 [("FOO", "def")] [("FOO", "bar")]
      "FOO" "def" rfl,
   create_env_merge_and_interpolation.2.1
      (fun k => if k == "FOO" then some "bar" else none) (fun _ => none)
      ['F', 'O', 'O'] [] (by decide) (by decide),
   create_env_merge_and_interpolation.2.2 wCreateState (some "adm")
      wCreateReq "sv1" 3 (fun _ => none) "adm" wCreateNode wAllocFree wImage
      wOwner rfl (by decide) rfl rfl rfl rfl rfl none⟩

theorem find?_map_congr {α β : Type} (f : α → β) (p : α → Bool) (q : β → Bool)
    (hpq : ∀ e, p e = q (f e)) :
    ∀ (l1 l2 : List α), l1.map f = l2.map f →
    (l1.find? p).map f = (l2.find? p).map f := by
  intro l1
  induction l1 with
  | nil =>
    intro l2 h
    cases l2 with
    | nil => rfl
    | cons y ys => simp at h
  | cons x xs ih =>
    intro l2 h
    cases l2 with
    | nil => simp at h
    | cons y ys =>
      simp only [List.map_cons, List.cons.injEq] at h
      obtain ⟨hxy, hys⟩ := h
      cases hq : p x with
      | true =>
        have hqy : p y = true := by
          rw [hpq y, ← hxy, ← hpq x]
          exact hq
        rw [List.find?_cons_of_pos _ hq, List.find?_cons_of_pos _ hqy]
        simp [hxy]
      | false =>
        have hqy : p y = false := by
          rw [hpq y, ← hxy, ← hpq x]
          exact hq
        rw [List.find?_cons_of_neg _ (by simp [hq]),
          List.find?_cons_of_neg _ (by simp [hqy])]
        exact ih ys hys

theorem key_unique_of_nodup :
    ∀ {l : List (String × NodeRec)}, (l.map (fun e => e.1)).Nodup →
    ∀ e1 ∈ l, ∀ e2 ∈ l, e1.1 = e2.1 → e1 = e2 := by
  intro l
  induction l with
  | nil =>
    intro _ e1 h1
    simp at h1
  | cons x xs ih =>
    intro hnd e1 h1 e2 h2 hk
    simp only [List.map_cons, List.nodup_cons] at hnd
    obtain ⟨hx, hxs⟩ := hnd
    rcases List.mem_cons.mp h1 with h1e | h1e
    · rcases List.mem_cons.mp h2 with h2e | h2e
      · rw [h1e, h2e]
      · exfalso
        apply hx
        rw [h1e] at hk
        rw [hk]
        exact List.mem_map_of_mem _ h2e
    · rcases List.mem_cons.mp h2 with h2e | h2e
      · exfalso
        apply hx
        rw [h2e] at hk
        rw [← hk]
        exact List.mem_map_of_mem _ h1e
      · exact ih hxs e1 h1e e2 h2e hk

theorem find?_key_of_mem_nodup {l : List (String × NodeRec)} {k : String}
    {n : NodeRec} (hmem : (k, n) ∈ l)
    (hnd : (l.map (fun e => e.1)).Nodup) :
    l.find? (fun e => e.1 == k) = some (k, n) := by
  cases hf : l.find? (fun e => e.1 == k) with
  | none =>
    exfalso
    have := List.find?_eq_none.mp hf (k, n) hmem
    simp at this
  | some e =>
    have hmem2 : e ∈ l := List.mem_of_find?_eq_some hf
    have hek : e.1 = k := by
      have := List.find?_some hf
      simpa using this
    have he : e = (k, n) := key_unique_of_nodup hnd e hmem2 (k, n) hmem hek
    rw [he]

theorem getNode_of_find? {st : State} {k : String} {n : NodeRec}
    (hmem : (k, n) ∈ st.nodes)
    (hnd : (st.nodes.map (fun e => e.1)).Nodup) :
    getNode st k = some n := by
  unfold getNode
  rw [find?_key_of_mem_nodup hmem hnd]
  rfl

theorem map_replaceFirstOrAppend_of_find? {α β : Type} (f : α → β)
    (p : α → Bool) (v : α) :
    ∀ (l : List α) (w : α), l.find? p = some w → f v = f w →
    (replaceFirstOrAppend p v l).map f = l.map f := by
  intro l
  induction l with
  | nil =>
    intro w hw _
    simp [List.find?] at hw
  | cons x xs ih =>
    intro w hw hfv
    cases hx : p x with
    | true =>
      have hwx : w = x := by
        rw [List.find?_cons_of_pos _ hx] at hw
        have := (Option.some.injEq _ _).mp hw
        exact this.symm
      rw [replaceFirstOrAppend_cons_pos v xs hx]
      simp only [List.map_cons]
      rw [hfv, hwx]
    | false =>
      rw [List.find?_cons_of_neg _ (by simp [hx])] at hw
      rw [replaceFirstOrAppend_cons_neg v xs hx]
      simp only [List.map_cons]
      rw [ih w hw hfv]

theorem releaseAllocs_mem_of_owner {sid : String} {l : List Allocation}
    {a1 : Allocation} {x : String}
    (h : a1 ∈ releaseAllocs sid l) (hx : a1.allocationOwnedto = some x) :
    a1 ∈ l := by
  obtain ⟨b, hb, hba⟩ := List.mem_map.mp h
  by_cases hbo : (b.allocationOwnedto == some sid) = true
  · rw [if_pos hbo] at hba
    rw [← hba] at hx
    simp at hx
  · rw [if_neg hbo] at hba
    rw [← hba]
    exact hb

theorem ownerTrace_refl (st : State) : OwnerTrace st st :=
  fun e1 he1 a1 ha1 _ hx => ⟨e1, he1, rfl, a1, ha1, hx⟩

theorem ownerTrace_trans {st0 st1 st2 : State}
    (h01 : OwnerTrace st0 st1) (h12 : OwnerTrace st1 st2) :
    OwnerTrace st0 st2 := by
  intro e2 he2 a2 ha2 x hx
  obtain ⟨e1, he1, hk1, a1, ha1, ho1⟩ := h12 e2 he2 a2 ha2 x hx
  obtain ⟨e0, he0, hk0, a0, ha0, ho0⟩ := h01 e1 he1 a1 ha1 x ho1
  exact ⟨e0, he0, hk0.trans hk1, a0, ha0, ho0⟩

theorem noOwner_of_trace {st0 st1 : State} (htr : OwnerTrace st0 st1)
    (x : String) (h : NoOwner st0 x) : NoOwner st1 x := by
  intro e1 he1 a1 ha1 hcon
  obtain ⟨e, he, _, a, ha, hown⟩ := htr e1 he1 a1 ha1 x hcon
  exact h e he a ha hown

theorem map_fst_of_shape :
    ∀ (l m : List (String × NodeRec)),
    l.map (fun e => (e.1, e.2.ip)) = m.map (fun e => (e.1, e.2.ip)) →
    l.map (fun e => e.1) = m.map (fun e => e.1) := by
  intro l
  induction l with
  | nil =>
    intro m h
    cases m with
    | nil => rfl
    | cons y ys => simp at h
  | cons x xs ih =>
    intro m h
    cases m with
    | nil => simp at h
    | cons y ys =>
      simp only [List.map_cons, List.cons.injEq] at h ⊢
      obtain ⟨h1, h2⟩ := h
      refine ⟨?_, ih ys h2⟩
      have h3 := congrArg Prod.fst h1
      exact h3

theorem resolveServerNode_some {st : State} {s : Server} {fb : NodeRec}
    {k : String} (h : (resolveServerNode st s fb).1 = some k) :
    st.nodes.find? (fun e =>
        (s.node.map (fun sn => e.1 == sn.id || e.2.ip == sn.ip)).getD false)
      = some (k, (resolveServerNode st s fb).2) := by
  unfold resolveServerNode at h ⊢
  revert h
  cases hf : st.nodes.find? (fun e =>
      (s.node.map (fun sn => e.1 == sn.id || e.2.ip == sn.ip)).getD false) with
  | none =>
    intro h
    simp at h
  | some w =>
    obtain ⟨k0, n0⟩ := w
    intro h
    simp only at h ⊢
    have hk : k0 = k := by simpa using h
    rw [hk]

theorem resolveServerNode_key_congr {st0 st1 : State} (s : Server)
    (fb : NodeRec) (hsh : NodesShapeEq st0 st1) :
    (resolveServerNode st1 s fb).1 = (resolveServerNode st0 s fb).1 := by
  have h := find?_map_congr (fun e : String × NodeRec => (e.1, e.2.ip))
    (fun e => (s.node.map (fun sn => e.1 == sn.id || e.2.ip == sn.ip)).getD false)
    (fun pr => (s.node.map (fun sn => pr.1 == sn.id || pr.2 == sn.ip)).getD false)
    (fun e => rfl) st1.nodes st0.nodes hsh
  unfold resolveServerNode
  cases h1 : st1.nodes.find? (fun e =>
      (s.node.map (fun sn => e.1 == sn.id || e.2.ip == sn.ip)).getD false) with
  | none =>
    cases h0 : st0.nodes.find? (fun e =>
        (s.node.map (fun sn => e.1 == sn.id || e.2.ip == sn.ip)).getD false) with
    | none => rfl
    | some w0 =>
      rw [h1, h0] at h
      simp at h
  | some w1 =>
    cases h0 : st0.nodes.find? (fun e =>
        (s.node.map (fun sn => e.1 == sn.id || e.2.ip == sn.ip)).getD false) with
    | none =>
      rw [h1, h0] at h
      simp at h
    | some w0 =>
      obtain ⟨k1, n1⟩ := w1
      obtain ⟨k0, n0⟩ := w0
      rw [h1, h0] at h
      have h3 : ((k1, n1.ip) : String × String) = (k0, n0.ip) := by
        simpa using h
      have hk : k1 = k0 := congrArg Prod.fst h3
      simp only
      rw [hk]

theorem putNode_servers (st : State) (k : String) (n : NodeRec) :
    (putNode st k n).servers = st.servers := rfl

theorem putUser_servers (st : State) (u : User) :
    (putUser st u).servers = st.servers := rfl

theorem finishCleanup_shape (st : State) (server : Server) (count : Nat) :
    ∃ st2 : State, st2.nodes = st.nodes ∧ st2.servers = st.servers ∧
      cleanupServer.finishCleanup st server count
        = ({ st2 with
              servers := st2.servers.filter (fun s => s.id != server.id) },
           count + 1) := by
  unfold cleanupServer.finishCleanup
  refine ⟨_, ?_, ?_, rfl⟩
  · split
    · split
      · rfl
      · split <;> rfl
    · rfl
  · split
    · split
      · rfl
      · split <;> rfl
    · rfl

theorem cleanupServer_step (st : State) (node : NodeRec) (acc : State × Nat)
    (s : Server)
    (hkeys : (st.nodes.map (fun e => e.1)).Nodup)
    (hsh : NodesShapeEq st acc.1)
    (htr : OwnerTrace st acc.1)
    (hres : (resolveServerNode st s node).1.isSome = true)
    (hloc : ∀ e ∈ st.nodes, ∀ a ∈ e.2.allocations,
        a.allocationOwnedto = some s.id →
        (resolveServerNode st s node).1 = some e.1) :
    NodesShapeEq st (cleanupServer node acc s).1 ∧
    OwnerTrace acc.1 (cleanupServer node acc s).1 ∧
    (cleanupServer node acc s).2 = acc.2 + 1 ∧
    NoServerId (cleanupServer node acc s).1 s.id ∧
    NoOwner (cleanupServer node acc s).1 s.id ∧
    (∀ s2 ∈ (cleanupServer node acc s).1.servers, s2 ∈ acc.1.servers) := by
  have hkeysacc : (acc.1.nodes.map (fun e => e.1)).Nodup := by
    rw [map_fst_of_shape acc.1.nodes st.nodes hsh]
    exact hkeys
  obtain ⟨k, hk⟩ := Option.isSome_iff_exists.mp hres
  have hkacc : (resolveServerNode acc.1 s node).1 = some k := by
    rw [resolveServerNode_key_congr s node hsh]
    exact hk
  have hfindacc := resolveServerNode_some hkacc
  have hmem1 : (k, (resolveServerNode acc.1 s node).2) ∈ acc.1.nodes :=
    List.mem_of_find?_eq_some hfindacc
  have hget : getNode acc.1 k = some (resolveServerNode acc.1 s node).2 :=
    getNode_of_find? hmem1 hkeysacc
  have hrun : cleanupServer node acc s
      = (if (resolveServerNode acc.1 s node).2.allocations.any
            (fun a => a.allocationOwnedto == some s.id) then
           match (resolveServerNode acc.1 s node).1 with
           | none => (acc.1, acc.2)
           | some k2 =>
             match getNode acc.1 k2 with
             | none => (acc.1, acc.2)
             | some cur =>
               cleanupServer.finishCleanup
                 (putNode acc.1 k2 { cur with
                   allocations := releaseAllocs s.id
                     (resolveServerNode acc.1 s node).2.allocations }) s acc.2
         else cleanupServer.finishCleanup acc.1 s acc.2) := rfl
  cases hch : (resolveServerNode acc.1 s node).2.allocations.any
      (fun a => a.allocationOwnedto == some s.id) with
  | false =>
    have hnoacc : NoOwner acc.1 s.id := by
      intro e1 he1 a1 ha1 hcon
      obtain ⟨e0, he0, hk0, a0, ha0, ho0⟩ := htr e1 he1 a1 ha1 s.id hcon
      have hres0 := hloc e0 he0 a0 ha0 ho0
      rw [hk] at hres0
      have hke : e1.1 = k := by
        have h5 : k = e0.1 := by simpa using hres0
        rw [hk0] at h5
        exact h5.symm
      have he1v := key_unique_of_nodup hkeysacc e1 he1
        (k, (resolveServerNode acc.1 s node).2) hmem1 hke
      rw [he1v] at ha1
      have hfalse := List.any_eq_false.mp hch a1 ha1
      apply hfalse
      rw [hcon]
      simp
    have hrun2 : cleanupServer node acc s
        = cleanupServer.finishCleanup acc.1 s acc.2 := by
      rw [hrun, hch, if_neg (Bool.false_ne_true)]
    obtain ⟨st2, hn2, hs2, hfc⟩ := finishCleanup_shape acc.1 s acc.2
    rw [hrun2, hfc]
    refine ⟨?_, ?_, rfl, ?_, ?_, ?_⟩
    · show NodesShapeEq st { st2 with
        servers := st2.servers.filter (fun x => x.id != s.id) }
      unfold NodesShapeEq
      have hn3 : ({ st2 with
          servers := st2.servers.filter (fun x => x.id != s.id) } : State).nodes
          = acc.1.nodes := hn2
      rw [hn3]
      exact hsh
    · intro e1 he1 a1 ha1 x hx
      have he1b : e1 ∈ st2.nodes := he1
      rw [hn2] at he1b
      exact ⟨e1, he1b, rfl, a1, ha1, hx⟩
    · intro x hx
      have hxb : x ∈ st2.servers.filter (fun q => q.id != s.id) := hx
      have := (List.mem_filter.mp hxb).2
      simpa using this
    · intro e1 he1 a1 ha1
      have he1b : e1 ∈ st2.nodes := he1
      rw [hn2] at he1b
      exact hnoacc e1 he1b a1 ha1
    · intro x hx
      have hxb : x ∈ st2.servers.filter (fun q => q.id != s.id) := hx
      have hxs := (List.mem_filter.mp hxb).1
      rw [hs2] at hxs
      exact hxs
  | true =>
    have hrun2 : cleanupServer node acc s
        = cleanupServer.finishCleanup
            (putNode acc.1 k { (resolveServerNode acc.1 s node).2 with
              allocations := releaseAllocs s.id
                (resolveServerNode acc.1 s node).2.allocations }) s acc.2 := by
      rw [hrun, hch, if_pos rfl, hkacc]
      simp only
      rw [hget]
    have hfindkey : acc.1.nodes.find? (fun e => e.1 == k)
        = some (k, (resolveServerNode acc.1 s node).2) :=
      find?_key_of_mem_nodup hmem1 hkeysacc
    have hshape1 : (putNode acc.1 k { (resolveServerNode acc.1 s node).2 with
        allocations := releaseAllocs s.id
          (resolveServerNode acc.1 s node).2.allocations }).nodes.map
          (fun e => (e.1, e.2.ip))
        = acc.1.nodes.map (fun e => (e.1, e.2.ip)) := by
      rw [putNode_nodes]
      exact map_replaceFirstOrAppend_of_find? (fun e => (e.1, e.2.ip))
        (fun e => e.1 == k)
        (k, { (resolveServerNode acc.1 s node).2 with
          allocations := releaseAllocs s.id
            (resolveServerNode acc.1 s node).2.allocations })
        acc.1.nodes (k, (resolveServerNode acc.1 s node).2) hfindkey rfl
    have hkeys1 : ((putNode acc.1 k
        { (resolveServerNode acc.1 s node).2 with
          allocations := releaseAllocs s.id
            (resolveServerNode acc.1 s node).2.allocations }).nodes.map
        (fun e => e.1)).Nodup := by
      rw [map_fst_of_shape _ acc.1.nodes hshape1]
      exact hkeysacc
    obtain ⟨st2, hn2, hs2, hfc⟩ := finishCleanup_shape
      (putNode acc.1 k { (resolveServerNode acc.1 s node).2 with
        allocations := releaseAllocs s.id
          (resolveServerNode acc.1 s node).2.allocations }) s acc.2
    rw [hrun2, hfc]
    refine ⟨?_, ?_, rfl, ?_, ?_, ?_⟩
    · show NodesShapeEq st { st2 with
        servers := st2.servers.filter (fun x => x.id != s.id) }
      unfold NodesShapeEq
      have hn3 : ({ st2 with
          servers := st2.servers.filter (fun x => x.id != s.id) } : State).nodes
          = st2.nodes := rfl
      rw [hn3, hn2, hshape1]
      exact hsh
    · intro e1 he1 a1 ha1 x hx
      have he1b : e1 ∈ st2.nodes := he1
      rw [hn2, putNode_nodes] at he1b
      rcases mem_replaceFirstOrAppend _ _ _ e1 he1b with hev | heo
      · rw [hev] at ha1
        have ha1b : a1 ∈ releaseAllocs s.id
            (resolveServerNode acc.1 s node).2.allocations := ha1
        have ha1c := releaseAllocs_mem_of_owner ha1b hx
        refine ⟨(k, (resolveServerNode acc.1 s node).2), hmem1, ?_, a1, ha1c, hx⟩
        rw [hev]
      · exact ⟨e1, heo, rfl, a1, ha1, hx⟩
    · intro x hx
      have hxb : x ∈ st2.servers.filter (fun q => q.id != s.id) := hx
      have := (List.mem_filter.mp hxb).2
      simpa using this
    · intro e1 he1 a1 ha1 hcon
      have he1b : e1 ∈ st2.nodes := he1
      rw [hn2, putNode_nodes] at he1b
      rcases mem_replaceFirstOrAppend _ _ _ e1 he1b with hev | heo
      · rw [hev] at ha1
        have ha1b : a1 ∈ releaseAllocs s.id
            (resolveServerNode acc.1 s node).2.allocations := ha1
        exact releaseAllocs_no_owner s.id _ a1 ha1b hcon
      · obtain ⟨e0, he0, hk0, a0, ha0, ho0⟩ := htr e1 heo a1 ha1 s.id hcon
        have hres0 := hloc e0 he0 a0 ha0 ho0
        rw [hk] at hres0
        have hke : e1.1 = k := by
          have h5 : k = e0.1 := by simpa using hres0
          rw [hk0] at h5
          exact h5.symm
        have hvmem : (k, { (resolveServerNode acc.1 s node).2 with
            allocations := releaseAllocs s.id
              (resolveServerNode acc.1 s node).2.allocations })
            ∈ (putNode acc.1 k { (resolveServerNode acc.1 s node).2 with
              allocations := releaseAllocs s.id
                (resolveServerNode acc.1 s node).2.allocations }).nodes := by
          rw [putNode_nodes]
          exact self_mem_replaceFirstOrAppend _ _ acc.1.nodes
        have he1c : e1 ∈ (putNode acc.1 k
            { (resolveServerNode acc.1 s node).2 with
              allocations := releaseAllocs s.id
                (resolveServerNode acc.1 s node).2.allocations }).nodes := by
          rw [putNode_nodes]
          exact he1b
        have he1v := key_unique_of_nodup hkeys1 e1 he1c _ hvmem hke
        rw [he1v] at ha1
        have ha1b : a1 ∈ releaseAllocs s.id
            (resolveServerNode acc.1 s node).2.allocations := ha1
        exact releaseAllocs_no_owner s.id _ a1 ha1b hcon
    · intro x hx
      have hxb : x ∈ st2.servers.filter (fun q => q.id != s.id) := hx
      have hxs := (List.mem_filter.mp hxb).1
      rw [hs2, putNode_servers] at hxs
      exact hxs

theorem cleanup_fold_spec (st : State) (node : NodeRec)
    (hkeys : (st.nodes.map (fun e => e.1)).Nodup) :
    ∀ (l : List Server) (acc : State × Nat),
    NodesShapeEq st acc.1 → OwnerTrace st acc.1 →
    (∀ s ∈ l, (resolveServerNode st s node).1.isSome = true) →
    (∀ s ∈ l, ∀ e ∈ st.nodes, ∀ a ∈ e.2.allocations,
        a.allocationOwnedto = some s.id →
        (resolveServerNode st s node).1 = some e.1) →
    NodesShapeEq st (l.foldl (cleanupServer node) acc).1 ∧
    (l.foldl (cleanupServer node) acc).2 = acc.2 + l.length ∧
    (∀ s2 ∈ (l.foldl (cleanupServer node) acc).1.servers,
      s2 ∈ acc.1.servers) ∧
    (∀ x, NoOwner acc.1 x → NoOwner (l.foldl (cleanupServer node) acc).1 x) ∧
    (∀ s ∈ l, NoServerId (l.foldl (cleanupServer node) acc).1 s.id ∧
      NoOwner (l.foldl (cleanupServer node) acc).1 s.id) := by
  intro l
  induction l with
  | nil =>
    intro acc h1 h2 _ _
    refine ⟨h1, rfl, fun s2 h => h, fun x h => h, ?_⟩
    intro s hs
    simp at hs
  | cons s rest ih =>
    intro acc hsh htr hres hloc
    have hstep := cleanupServer_step st node acc s hkeys hsh htr
      (hres s (List.mem_cons_self s rest))
      (hloc s (List.mem_cons_self s rest))
    obtain ⟨p1, p2, p3, p4, p5, p6⟩ := hstep
    have htr2 : OwnerTrace st (cleanupServer node acc s).1 :=
      ownerTrace_trans htr p2
    have ihh := ih (cleanupServer node acc s) p1 htr2
      (fun t ht => hres t (List.mem_cons_of_mem s ht))
      (fun t ht => hloc t (List.mem_cons_of_mem s ht))
    obtain ⟨g1, g2, g3, g4, g5⟩ := ihh
    simp only [List.foldl_cons, List.length_cons]
    refine ⟨g1, ?_, ?_, ?_, ?_⟩
    · rw [g2, p3]
      omega
    · intro s2 hs2
      exact p6 s2 (g3 s2 hs2)
    · intro x hx
      exact g4 x (noOwner_of_trace p2 x hx)
    · intro t ht
      rcases List.mem_cons.mp ht with hts | htr2b
      · constructor
        · intro s2 hs2
          rw [hts]
          exact p4 s2 (g3 s2 hs2)
        · rw [hts]
          exact g4 s.id p5
      · exact g5 t htr2b

/-- Claim C4 counterexample: deleting node alpha cleans up its server s5 and
reports success, yet an allocation on the unrelated node beta is still owned
by s5 afterwards — the cleanup only frees allocations on the node each
server RESOLVES to, so a cross-node stale reference survives. -/
theorem delete_node_counterexample :
    (deleteNode cex4State (some "adm") "n4").2 = .done 1 ∧
    getServerRec (deleteNode cex4State (some "adm") "n4").1 "s5" = none ∧
    ((deleteNode cex4State (some "adm") "n4").1.nodes.any (fun e =>
      e.2.allocations.any (fun a => a.allocationOwnedto == some "s5")))
      = true := by
  refine ⟨rfl, rfl, rfl⟩

/-- Claim C4, amended: for a node delete by an admin on an existing node,
PROVIDED every server matching the node (by snapshot ip or name — the id
clause of the source's filter compares against an `undefined` id and never
fires) resolves to a live node record, and every allocation owned by such a
server lives on the node it resolves to, the cascade works: the count is the
number of matched servers, the node record is gone, no matched server id
remains in the servers table, and no allocation anywhere still references a
matched server.  The counterexample shows the locality proviso is real: an
owned allocation on a DIFFERENT node survives the cascade. -/
theorem delete_node_amended
    (st : State) (session : Option String) (id uid : String) (node : NodeRec)
    (hauth : adminGate st session = .ok uid)
    (hnode : getNode st id = some node)
    (hkeys : (st.nodes.map (fun e => e.1)).Nodup)
    (hres : ∀ s ∈ st.servers, serverMatchesNode node s = true →
      (resolveServerNode st s node).1.isSome = true)
    (hloc : ∀ s ∈ st.servers, serverMatchesNode node s = true →
      ∀ e ∈ st.nodes, ∀ a ∈ e.2.allocations,
        a.allocationOwnedto = some s.id →
        (resolveServerNode st s node).1 = some e.1) :
    (deleteNode st session id).2
        = .done (st.servers.filter (serverMatchesNode node)).length ∧
    (∀ e ∈ (deleteNode st session id).1.nodes, e.1 ≠ id) ∧
    (∀ s ∈ st.servers, serverMatchesNode node s = true →
      NoServerId (deleteNode st session id).1 s.id ∧
      NoOwner (deleteNode st session id).1 s.id) := by
  have hrun : deleteNode st session id
      = ({ ((st.servers.filter (serverMatchesNode node)).foldl
              (cleanupServer node) (st, 0)).1 with
            nodes := ((st.servers.filter (serverMatchesNode node)).foldl
              (cleanupServer node) (st, 0)).1.nodes.filter
              (fun e => e.1 != id) },
         .done ((st.servers.filter (serverMatchesNode node)).foldl
            (cleanupServer node) (st, 0)).2) := by
    unfold deleteNode
    rw [hauth]
    simp only
    rw [hnode]
  have hfold := cleanup_fold_spec st node hkeys
    (st.servers.filter (serverMatchesNode node)) (st, 0) rfl
    (ownerTrace_refl st)
    (fun s hs => hres s (List.mem_filter.mp hs).1 (List.mem_filter.mp hs).2)
    (fun s hs => hloc s (List.mem_filter.mp hs).1 (List.mem_filter.mp hs).2)
  obtain ⟨f1, f2, f3, f4, f5⟩ := hfold
  rw [hrun]
  refine ⟨?_, ?_, ?_⟩
  · simp only
    rw [f2]
    simp
  · intro e he
    have heb : e ∈ ((st.servers.filter (serverMatchesNode node)).foldl
        (cleanupServer node) (st, 0)).1.nodes.filter (fun q => q.1 != id) :=
      he
    have := (List.mem_filter.mp heb).2
    simpa using this
  · intro s hs hmatch
    have hsmem : s ∈ st.servers.filter (serverMatchesNode node) :=
      List.mem_filter.mpr ⟨hs, hmatch⟩
    obtain ⟨hnoid, hnoown⟩ := f5 s hsmem
    constructor
    · intro s2 hs2
      exact hnoid s2 hs2
    · intro e he a ha
      have heb : e ∈ ((st.servers.filter (serverMatchesNode node)).foldl
          (cleanupServer node) (st, 0)).1.nodes.filter (fun q => q.1 != id) :=
        he
      have hef := (List.mem_filter.mp heb).1
      exact hnoown e hef a ha

/-- Witness for the amended node-delete claim on a one-node, one-server
state whose only owned allocation sits on that very node: the cascade
removes the server, frees the allocation and drops the node. -/
theorem delete_node_amended_witness :
    (deleteNode w4State (some "adm") "n6").2 = .done 1 ∧
    (∀ e ∈ (deleteNode w4State (some "adm") "n6").1.nodes, e.1 ≠ "n6") ∧
    NoServerId (deleteNode w4State (some "adm") "n6").1 "s6" ∧
    NoOwner (deleteNode w4State (some "adm") "n6").1 "s6" := by
  have h := delete_node_amended w4State (some "adm") "n6" "adm" w4Node
    rfl rfl (by decide) (by decide) (by decide)
  have h3 := h.2.2 w4Server (by simp [w4State]) (by decide)
  exact ⟨h.1, h.2.1, h3.1, h3.2⟩

/-- Claim C7 counterexample: a relay request for an EXISTING server by a
session whose user record is missing (a dangling session) does not close the
stream with a reason — evaluating `user.id` after `unsqh.get` returned null
throws a TypeError in both handlers, so neither the Forbidden close nor any
other close is reached. -/
theorem ws_relay_counterexample :
    consoleWs cex3State (some "ghost") "s3" = .crashed ∧
    statsWs cex3State (some "ghost") "s3" = .crashed := by
  exact ⟨rfl, rfl⟩

/-- Claim C7, amended: console and stats share one gate.  A missing or empty
session actor closes `1008 Unauthorized`; a missing server record closes
`1008 Forbidden`; an actor WHOSE RECORD EXISTS but is not the stored owner
closes `1008 Forbidden`; an owner whose server has no node snapshot, or a
snapshot matching no live node by ip, closes `1008 "Node not found"`; and a
relay (node socket open with auth key and subscribe frame) happens only when
every check passed.  The proviso that the actor's user record exists is
necessary: with a dangling session record the handler crashes instead of
closing — see the counterexample. -/
theorem ws_relay_amended (st : State) (id : String) :
    (∀ session, consoleWs st session id = wsHandle st session id "logs" ∧
      statsWs st session id = wsHandle st session id "stats") ∧
    (∀ ev, wsHandle st none id ev = .closed 1008 "Unauthorized") ∧
    (∀ ev, wsHandle st (some "") id ev = .closed 1008 "Unauthorized") ∧
    (∀ uid ev, uid ≠ "" → getServerRec st id = none →
      wsHandle st (some uid) id ev = .closed 1008 "Forbidden") ∧
    (∀ uid ev server user, uid ≠ "" → getServerRec st id = some server →
      getUser st uid = some user → server.userId ≠ user.id →
      wsHandle st (some uid) id ev = .closed 1008 "Forbidden") ∧
    (∀ uid ev server user, uid ≠ "" → getServerRec st id = some server →
      getUser st uid = some user → server.userId = user.id →
      server.node = none →
      wsHandle st (some uid) id ev = .closed 1008 "Node not found") ∧
    (∀ uid ev server user snap, uid ≠ "" →
      getServerRec st id = some server →
      getUser st uid = some user → server.userId = user.id →
      server.node = some snap →
      st.nodes.find? (fun e => e.2.ip == snap.ip) = none →
      wsHandle st (some uid) id ev = .closed 1008 "Node not found") ∧
    (∀ uid ev server, uid ≠ "" → getServerRec st id = some server →
      getUser st uid = none → wsHandle st (some uid) id ev = .crashed) ∧
    (∀ session ev nodeIp nodePort authKey sub tid,
      wsHandle st session id ev = .relay nodeIp nodePort authKey sub tid →
      ∃ server user nodeKey nodeRec,
        getServerRec st id = some server ∧
        (∃ uid, session = some uid ∧ uid ≠ "" ∧
          getUser st uid = some user) ∧
        server.userId = user.id ∧
        (∃ snap, server.node = some snap ∧
          st.nodes.find? (fun e => e.2.ip == snap.ip)
            = some (nodeKey, nodeRec)) ∧
        nodeIp = nodeRec.ip ∧ nodePort = nodeRec.port ∧
        authKey = nodeRec.key ∧ sub = ev ∧ tid = server.idt) := by
  refine ⟨fun _ => ⟨rfl, rfl⟩, fun _ => rfl, fun _ => rfl, ?_, ?_, ?_, ?_,
    ?_, ?_⟩
  · intro uid ev hne hnone
    unfold wsHandle
    simp only
    rw [if_neg hne, hnone]
  · intro uid ev server user hne hs hu hneq
    unfold wsHandle
    simp only
    rw [if_neg hne, hs]
    simp only
    rw [hu]
    simp only
    rw [if_pos (by simpa using hneq)]
  · intro uid ev server user hne hs hu heq hnode
    unfold wsHandle
    simp only
    rw [if_neg hne, hs]
    simp only
    rw [hu]
    simp only
    rw [if_neg (by simp [heq]), hnode]
  · intro uid ev server user snap hne hs hu heq hsnap hfind
    unfold wsHandle
    simp only
    rw [if_neg hne, hs]
    simp only
    rw [hu]
    simp only
    rw [if_neg (by simp [heq]), hsnap]
    simp only
    rw [hfind]
  · intro uid ev server hne hs hu
    unfold wsHandle
    simp only
    rw [if_neg hne, hs]
    simp only
    rw [hu]
  · intro session ev nodeIp nodePort authKey sub tid h
    unfold wsHandle at h
    cases session with
    | none => simp at h
    | some uid =>
      simp only at h
      by_cases hne : uid = ""
      · rw [if_pos hne] at h
        simp at h
      · rw [if_neg hne] at h
        cases hs : getServerRec st id with
        | none =>
          rw [hs] at h
          simp at h
        | some server =>
          rw [hs] at h
          simp only at h
          cases hu : getUser st uid with
          | none =>
            rw [hu] at h
            simp at h
          | some user =>
            rw [hu] at h
            simp only at h
            by_cases howner : (server.userId != user.id) = true
            · rw [if_pos howner] at h
              simp at h
            · rw [if_neg howner] at h
              cases hsnap : server.node with
              | none =>
                rw [hsnap] at h
                simp at h
              | some snap =>
                rw [hsnap] at h
                simp only at h
                cases hfind : st.nodes.find? (fun e => e.2.ip == snap.ip) with
                | none =>
                  rw [hfind] at h
                  simp at h
                | some e =>
                  obtain ⟨nk, nr⟩ := e
                  rw [hfind] at h
                  simp only [WsOutcome.relay.injEq] at h
                  obtain ⟨h1, h2, h3, h4, h5⟩ := h
                  refine ⟨server, user, nk, nr, rfl,
                    ⟨uid, rfl, hne, hu⟩, by simpa using howner,
                    ⟨snap, hsnap, hfind⟩,
                    h1.symm, h2.symm, h3.symm, h4.symm, h5.symm⟩

/-- Witness for the amended relay claim: on the concrete fixture the three
failure classes close with their reasons, and a dangling session crashes. -/
theorem ws_relay_amended_witness :
    wsHandle w3State none "s4" "logs" = .closed 1008 "Unauthorized" ∧
    wsHandle w3State (some "adm") "s4" "stats" = .closed 1008 "Forbidden" ∧
    wsHandle w3State (some "ghost") "s4" "logs" = .crashed := by
  refine ⟨(ws_relay_amended w3State "s4").2.1 "logs", ?_, ?_⟩
  · exact (ws_relay_amended w3State "s4").2.2.2.2.1 "adm" "stats" w3Server
      wAdminUser (by decide) rfl rfl (by decide)
  · exact (ws_relay_amended w3State "s4").2.2.2.2.2.2.2.1 "ghost" "logs"
      w3Server (by decide) rfl rfl

theorem updateFirst_copy_of_any (sid : String) (logs : List AuditEntry)
    (l : List Server) (hany : l.any (fun s => s.id == sid) = true) :
    ∃ sc ∈ updateFirst (fun s : Server => s.id == sid)
        (fun s : Server => { s with auditLogs := logs }) l,
      sc.id = sid ∧ sc.auditLogs = logs := by
  have hsome : (l.find? (fun s => s.id == sid)).isSome := by
    rw [List.find?_isSome]
    simpa using hany
  obtain ⟨a, ha⟩ := Option.isSome_iff_exists.mp hsome
  obtain ⟨l1, l2, hdec, hl1, hupd⟩ := updateFirst_of_find?
    (fun s : Server => s.id == sid)
    (fun s : Server => { s with auditLogs := logs }) ha
  refine ⟨{ a with auditLogs := logs }, ?_, ?_, rfl⟩
  · rw [hupd]
    exact List.mem_append_right _ (List.mem_cons_self _ _)
  · have h2 := List.find?_some ha
    have hid : a.id = sid := by simpa using h2
    exact hid

/-- Claim C8 counterexample: with all three arguments non-missing, a
serverId that matches no canonical record but DOES match a record by `idt`
neither appends an entry nor returns false — the source reassigns the
`const server` binding and throws a TypeError, writing nothing. -/
theorem audit_fallback_counterexample :
    addAuditLog w3State "t4" "u4" "login" "e9" "t9" = (w3State, .crashed) ∧
    getServerRec w3State "t4" = none ∧
    (w3State.servers.any (fun s => s.idt == "t4")) = true := by
  exact ⟨rfl, rfl, rfl⟩

/-- Claim C8, amended: when the CANONICAL record exists, an audit write with
non-missing serverId, userId and action appends exactly one entry (fresh id,
the acting user, the action text, the timestamp) to the canonical server's
log and replicates the new log to the first embedded copy of every user
record holding one, matched by server id; users without a copy are
untouched.  Missing arguments return false and write nothing.  The
canonical-record proviso is necessary: an idt-only fallback match crashes on
a `const` reassignment instead — see the counterexample. -/
theorem audit_log_amended
    (st : State) (serverId userId action entryId ts : String)
    (server : Server)
    (hsid : serverId ≠ "") (huid : userId ≠ "") (hact : action ≠ "")
    (hserver : getServerRec st serverId = some server) :
    (∀ sid2 uid2 act2 : String, sid2 = "" ∨ uid2 = "" ∨ act2 = "" →
      addAuditLog st sid2 uid2 act2 entryId ts = (st, .missing)) ∧
    ∃ entry : AuditEntry,
      entry.id = entryId ∧ entry.userId = userId ∧
      entry.action = action ∧ entry.ts = ts ∧
      (addAuditLog st serverId userId action entryId ts).2
        = .logged entry ∧
      getServerRec (addAuditLog st serverId userId action entryId ts).1
          serverId
        = some { server with auditLogs := server.auditLogs ++ [entry] } ∧
      (∀ u0 ∈ st.users,
        u0.servers.any (fun s => s.id == server.id) = true →
          ∃ u ∈ (addAuditLog st serverId userId action entryId ts).1.users,
            u.id = u0.id ∧ ∃ sc ∈ u.servers, sc.id = server.id ∧
              sc.auditLogs = server.auditLogs ++ [entry]) ∧
      (∀ u0 ∈ st.users,
        u0.servers.any (fun s => s.id == server.id) = false →
          u0 ∈ (addAuditLog st serverId userId action entryId ts).1.users) := by
  have hcond : ¬(serverId = "" ∨ userId = "" ∨ action = "") := by
    simp [hsid, huid, hact]
  have hf : st.servers.find? (fun s => s.id == serverId) = some server :=
    hserver
  have hkey : server.id = serverId := by
    have h2 := List.find?_some hf
    simpa using h2
  have hrun : addAuditLog st serverId userId action entryId ts
      = (withUsers
           (putServer st (withAuditLogs server (server.auditLogs
             ++ [mkAuditEntry entryId userId action ts])))
           (st.users.map (auditFanOut server.id (server.auditLogs
             ++ [mkAuditEntry entryId userId action ts]))),
         .logged (mkAuditEntry entryId userId action ts)) := by
    unfold addAuditLog withUsers withAuditLogs auditFanOut mkAuditEntry
    rw [if_neg hcond, hserver]
    rfl
  constructor
  · intro sid2 uid2 act2 hor
    unfold addAuditLog
    rw [if_pos hor]
  · refine ⟨mkAuditEntry entryId userId action ts,
      rfl, rfl, rfl, rfl, ?_, ?_, ?_, ?_⟩
    · rw [hrun]
    · rw [hrun]
      show getServerRec
          (putServer st (withAuditLogs server (server.auditLogs
            ++ [mkAuditEntry entryId userId action ts]))) serverId = _
      rw [← hkey]
      exact getServerRec_putServer st _
    · intro u0 hu0 hany
      rw [hrun]
      refine ⟨auditFanOut server.id (server.auditLogs
          ++ [mkAuditEntry entryId userId action ts]) u0, ?_, ?_, ?_⟩
      · exact List.mem_map_of_mem _ hu0
      · unfold auditFanOut
        split <;> rfl
      · unfold auditFanOut
        rw [if_pos hany]
        exact updateFirst_copy_of_any server.id _ u0.servers hany
    · intro u0 hu0 hnone
      rw [hrun]
      refine List.mem_map.mpr ⟨u0, hu0, ?_⟩
      unfold auditFanOut
      rw [if_neg (by simp [hnone])]

/-- Witness for the amended audit claim on the concrete fixture: a missing
argument returns false, a real write logs the entry and appends it to the
canonical record. -/
theorem audit_log_amended_witness :
    addAuditLog w3State "" "u4" "login" "e1" "t0" = (w3State, .missing) ∧
    ∃ entry : AuditEntry,
      (addAuditLog w3State "s4" "u4" "login" "e1" "t0").2 = .logged entry ∧
      getServerRec (addAuditLog w3State "s4" "u4" "login" "e1" "t0").1 "s4"
        = some { w3Server with
            auditLogs := w3Server.auditLogs ++ [entry] } := by
  have h := audit_log_amended w3State "s4" "u4" "login" "e1" "t0" w3Server
    (by decide) (by decide) (by decide) rfl
  obtain ⟨hmiss, entry, _, _, _, _, hout, hcanon, _, _⟩ := h
  exact ⟨hmiss "" "u4" "login" (Or.inl rfl), entry, hout, hcanon⟩

theorem getServerRec_congr {st1 st2 : State} (id : String)
    (h : st1.servers = st2.servers) :
    getServerRec st1 id = getServerRec st2 id := by
  unfold getServerRec
  rw [h]

theorem editCore_failed {st : State} {server : Server} {image : Image}
    {req : EditReq} {penv : String → Option String} {payload : EditPayload}
    (h : (editCore st server image req penv none).2 = .editFailed payload) :
    payload.port = server.port := by
  unfold editCore at h
  simp only at h
  rw [EditOutcome.editFailed.injEq] at h
  rw [← h]

theorem editCore_success {st : State} {server : Server} {image : Image}
    {req : EditReq} {penv : String → Option String} {cid : String}
    {payload : EditPayload} {server2 : Server}
    (h : (editCore st server image req penv (some cid)).2
      = .success payload server2) :
    payload.port = server.port ∧ server2.port = server.port ∧
    server2.id = server.id ∧
    (editCore st server image req penv (some cid)).1.servers
      = (putServer st server2).servers := by
  unfold editCore at h
  simp only at h
  rw [EditOutcome.success.injEq] at h
  obtain ⟨h1, h2⟩ := h
  refine ⟨by rw [← h1], by rw [← h2], by rw [← h2], ?_⟩
  unfold editCore
  simp only
  rw [← h2]
  split <;> rfl

/-- Claim C9: the edit route never reads the caller-supplied `port` field
(it is commented out of the body destructuring): the whole route is
invariant under that field, the payload sent to the node carries the
server's stored port on both the failed and successful paths, and on
success the stored record (canonical and re-fetched) keeps its old port —
port changes can only come from the network claim/release routes. -/
theorem edit_ignores_port
    (st : State) (session : Option String) (serverId : String)
    (req : EditReq) (penv : String → Option String)
    (remote : Option String) (server : Server)
    (hserver : getServerRec st serverId = some server) :
    (∀ p1 p2 : Option Nat,
      editServer st session serverId { req with port := p1 } penv remote
        = editServer st session serverId { req with port := p2 } penv
            remote) ∧
    (∀ payload, (editServer st session serverId req penv remote).2
        = .editFailed payload →
      payload.port = server.port ∧
      (editServer st session serverId req penv remote).1 = st) ∧
    (∀ payload server2,
      (editServer st session serverId req penv remote).2
        = .success payload server2 →
      payload.port = server.port ∧ server2.port = server.port ∧
      getServerRec (editServer st session serverId req penv remote).1
          serverId = some server2) := by
  have hf : st.servers.find? (fun s => s.id == serverId) = some server :=
    hserver
  have hkey : server.id = serverId := by
    have h2 := List.find?_some hf
    simpa using h2
  refine ⟨fun p1 p2 => rfl, ?_, ?_⟩
  · intro payload h
    unfold editServer at h ⊢
    cases hg : adminGate st session with
    | redirectLogin =>
      rw [hg] at h
      simp at h
    | forbidden =>
      rw [hg] at h
      simp at h
    | ok uid =>
      rw [hg] at h
      simp only at h ⊢
      rw [hserver] at h ⊢
      simp only at h ⊢
      cases hsnap : server.node with
      | none =>
        rw [hsnap] at h
        simp at h
      | some snap =>
        rw [hsnap] at h
        simp only at h ⊢
        cases hfind : st.nodes.find? (fun e => e.2.ip == snap.ip) with
        | none =>
          rw [hfind] at h
          simp at h
        | some ne =>
          rw [hfind] at h
          simp only at h ⊢
          by_cases him : (req.imageId != "") = true
          · rw [if_pos him] at h ⊢
            cases hgi : getImage st req.imageId with
            | none =>
              rw [hgi] at h
              simp at h
            | some image =>
              rw [hgi] at h
              simp only at h ⊢
              cases remote with
              | none => exact ⟨editCore_failed h, rfl⟩
              | some cid =>
                unfold editCore at h
                simp only at h
                simp at h
          · rw [if_neg him] at h ⊢
            cases hgi : getImage st server.imageId with
            | none =>
              rw [hgi] at h
              simp at h
            | some image =>
              rw [hgi] at h
              simp only at h ⊢
              cases remote with
              | none => exact ⟨editCore_failed h, rfl⟩
              | some cid =>
                unfold editCore at h
                simp only at h
                simp at h
  · intro payload server2 h
    unfold editServer at h ⊢
    cases hg : adminGate st session with
    | redirectLogin =>
      rw [hg] at h
      simp at h
    | forbidden =>
      rw [hg] at h
      simp at h
    | ok uid =>
      rw [hg] at h
      simp only at h ⊢
      rw [hserver] at h ⊢
      simp only at h ⊢
      cases hsnap : server.node with
      | none =>
        rw [hsnap] at h
        simp at h
      | some snap =>
        rw [hsnap] at h
        simp only at h ⊢
        cases hfind : st.nodes.find? (fun e => e.2.ip == snap.ip) with
        | none =>
          rw [hfind] at h
          simp at h
        | some ne =>
          rw [hfind] at h
          simp only at h ⊢
          by_cases him : (req.imageId != "") = true
          · rw [if_pos him] at h ⊢
            cases hgi : getImage st req.imageId with
            | none =>
              rw [hgi] at h
              simp at h
            | some image =>
              rw [hgi] at h
              simp only at h ⊢
              cases remote with
              | none =>
                unfold editCore at h
                simp only at h
                simp at h
              | some cid =>
                obtain ⟨hp, hsp, hsid, hsv⟩ := editCore_success h
                refine ⟨hp, hsp, ?_⟩
                rw [getServerRec_congr serverId hsv, ← hkey, ← hsid]
                exact getServerRec_putServer st server2
          · rw [if_neg him] at h ⊢
            cases hgi : getImage st server.imageId with
            | none =>
              rw [hgi] at h
              simp at h
            | some image =>
              rw [hgi] at h
              simp only at h ⊢
              cases remote with
              | none =>
                unfold editCore at h
                simp only at h
                simp at h
              | some cid =>
                obtain ⟨hp, hsp, hsid, hsv⟩ := editCore_success h
                refine ⟨hp, hsp, ?_⟩
                rw [getServerRec_congr serverId hsv, ← hkey, ← hsid]
                exact getServerRec_putServer st server2

/-- Witness for the port-frame claim: on the concrete fixture the route's
result is literally independent of the supplied port, and the payload of a
failed remote edit carries the stored port `400`. -/
theorem edit_ignores_port_witness :
    editServer w9State (some "adm") "s4"
        { port := some 9999, imageId := "img" } (fun _ => none) none
      = editServer w9State (some "adm") "s4"
        { port := none, imageId := "img" } (fun _ => none) none ∧
    ∃ payload,
      (editServer w9State (some "adm") "s4" { imageId := "img" }
          (fun _ => none) none).2 = .editFailed payload ∧
      payload.port = some 400 := by
  have h := edit_ignores_port w9State (some "adm") "s4"
    { imageId := "img" } (fun _ => none) none w3Server rfl
  refine ⟨h.1 (some 9999) none, ⟨_, rfl, ?_⟩⟩
  have h2 := h.2.1 _ rfl
  exact h2.1

theorem addAuditLog_canonical (st : State)
    (serverId userId action entryId ts : String) (server : Server)
    (hsid : serverId ≠ "") (huid2 : userId ≠ "") (hact : action ≠ "")
    (hserver : getServerRec st serverId = some server) :
    getServerRec (addAuditLog st serverId userId action entryId ts).1
        serverId
      = some (withAuditLogs server (server.auditLogs
          ++ [mkAuditEntry entryId userId action ts])) := by
  have hcond : ¬(serverId = "" ∨ userId = "" ∨ action = "") := by
    simp [hsid, huid2, hact]
  have hf : st.servers.find? (fun s => s.id == serverId) = some server :=
    hserver
  have hkey : server.id = serverId := by
    have h2 := List.find?_some hf
    simpa using h2
  have hrun : addAuditLog st serverId userId action entryId ts
      = (withUsers
           (putServer st (withAuditLogs server (server.auditLogs
             ++ [mkAuditEntry entryId userId action ts])))
           (st.users.map (auditFanOut server.id (server.auditLogs
             ++ [mkAuditEntry entryId userId action ts]))),
         .logged (mkAuditEntry entryId userId action ts)) := by
    unfold addAuditLog withUsers withAuditLogs auditFanOut mkAuditEntry
    rw [if_neg hcond, hserver]
    rfl
  rw [hrun]
  show getServerRec (putServer st (withAuditLogs server (server.auditLogs
      ++ [mkAuditEntry entryId userId action ts]))) serverId = _
  rw [← hkey]
  exact getServerRec_putServer st _

/-- Claim C10: on the successful network-remove path the matched allocation
only loses its owner — its role field is left exactly as it was, so a freed
allocation can still carry role `"primary"` — the removed port disappears
from the server's port list, and the server's primary port is re-derived
from the remaining ports (`ports[0] || null`, so `null` when none remain)
or kept when a different port was removed; the delete path, by contrast,
resets the role of every freed allocation to the empty string. -/
theorem remove_keeps_role_delete_resets
    (st : State) (uid id : String) (port : Nat) (cid entryId ts : String)
    (user : User) (server : Server) (nodeKey : String) (node : NodeRec)
    (a0 : Allocation)
    (huid : uid ≠ "")
    (hsid : server.id ≠ "")
    (huser : getUser st uid = some user)
    (hserver : getServerForUser st uid id = some server)
    (hsusp : server.suspended = false)
    (hsnap : server.node.isNone = false)
    (hfindnode : st.nodes.find?
        (fun e => e.2.ip == (server.node.map (·.ip)).getD "")
      = some (nodeKey, node))
    (halloc : node.allocations.find? (fun a =>
        a.port == port && a.allocationOwnedto == some server.id)
      = some a0) :
    (removeAllocationFromServer st (some uid) id port (some cid) entryId
        ts).2 = .released ∧
    (∃ e ∈ (removeAllocationFromServer st (some uid) id port (some cid)
        entryId ts).1.nodes, e.1 = nodeKey ∧
      ({ a0 with allocationOwnedto := none } : Allocation)
        ∈ e.2.allocations) ∧
    ({ a0 with allocationOwnedto := none } : Allocation).type = a0.type ∧
    (∃ server2, getServerRec (removeAllocationFromServer st (some uid) id
        port (some cid) entryId ts).1 server.id = some server2 ∧
      server2.ports
        = some ((server.ports.map
            (·.filter (fun p => p != port))).getD []) ∧
      server2.port
        = (if server.port == some port then
            jsHeadOrNull ((server.ports.map
              (·.filter (fun p => p != port))).getD [])
          else server.port)) ∧
    (∀ b ∈ node.allocations, b.allocationOwnedto = some server.id →
      ({ b with allocationOwnedto := none, type := "" } : Allocation)
        ∈ releaseAllocs server.id node.allocations ∧
      ({ b with allocationOwnedto := none, type := "" } : Allocation).type
        = "") := by
  have hact : String.append "Deleted allocation on port " (toString port)
      ≠ "" := by
    intro hcon
    have h2 : ("Deleted allocation on port ").data ++ (toString port).data
        = ([] : List Char) := congrArg String.data hcon
    have h3 := List.append_eq_nil.mp h2
    simpa using h3.1
  have hrun : removeAllocationFromServer st (some uid) id port (some cid)
      entryId ts
      = ((addAuditLog (putUser (putServer (putNode st nodeKey (withAllocations node (updateFirst (fun a => a.port == port && a.allocationOwnedto == some server.id) (fun a => { a with allocationOwnedto := none }) node.allocations))) (removePatch server ((server.ports.map (·.filter (fun p => p != port))).getD []) (if server.port == some port then jsHeadOrNull ((server.ports.map (·.filter (fun p => p != port))).getD []) else server.port) cid)) (withServers user (user.servers.map (fun s => if s.id == server.id then removePatch server ((server.ports.map (·.filter (fun p => p != port))).getD []) (if server.port == some port then jsHeadOrNull ((server.ports.map (·.filter (fun p => p != port))).getD []) else server.port) cid else s)))) server.id uid (String.append "Deleted allocation on port " (toString port)) entryId ts).1,
         .released) := by
    unfold removeAllocationFromServer removePatch withServers
      withAllocations
    simp only
    rw [if_neg huid, huser]
    simp only
    rw [hserver]
    simp only
    rw [hsusp]
    rw [if_neg (Bool.false_ne_true)]
    rw [hsnap]
    rw [if_neg (Bool.false_ne_true)]
    rw [hfindnode]
    simp only
    rw [halloc]
  rw [hrun]
  refine ⟨rfl, ?_, rfl, ?_, ?_⟩
  · rw [addAuditLog_nodes, putUser_nodes, putServer_nodes, putNode_nodes]
    refine ⟨(nodeKey, withAllocations node (updateFirst
        (fun a => a.port == port && a.allocationOwnedto == some server.id)
        (fun a => { a with allocationOwnedto := none }) node.allocations)),
      self_mem_replaceFirstOrAppend _ _ _, rfl, ?_⟩
    obtain ⟨l1, l2, hdec, hl1, hupd⟩ := updateFirst_of_find?
      (fun a : Allocation =>
        a.port == port && a.allocationOwnedto == some server.id)
      (fun a : Allocation => { a with allocationOwnedto := none }) halloc
    show ({ a0 with allocationOwnedto := none } : Allocation)
      ∈ updateFirst
        (fun a => a.port == port && a.allocationOwnedto == some server.id)
        (fun a => { a with allocationOwnedto := none }) node.allocations
    rw [hupd]
    exact List.mem_append_right _ (List.mem_cons_self _ _)
  · have hc3 : getServerRec (putUser (putServer (putNode st nodeKey (withAllocations node (updateFirst (fun a => a.port == port && a.allocationOwnedto == some server.id) (fun a => { a with allocationOwnedto := none }) node.allocations))) (removePatch server ((server.ports.map (·.filter (fun p => p != port))).getD []) (if server.port == some port then jsHeadOrNull ((server.ports.map (·.filter (fun p => p != port))).getD []) else server.port) cid)) (withServers user (user.servers.map (fun s => if s.id == server.id then removePatch server ((server.ports.map (·.filter (fun p => p != port))).getD []) (if server.port == some port then jsHeadOrNull ((server.ports.map (·.filter (fun p => p != port))).getD []) else server.port) cid else s)))) server.id
        = some (removePatch server ((server.ports.map (·.filter (fun p => p != port))).getD []) (if server.port == some port then jsHeadOrNull ((server.ports.map (·.filter (fun p => p != port))).getD []) else server.port) cid) := by
      show getServerRec (putServer (putNode st nodeKey (withAllocations node (updateFirst (fun a => a.port == port && a.allocationOwnedto == some server.id) (fun a => { a with allocationOwnedto := none }) node.allocations))) (removePatch server ((server.ports.map (·.filter (fun p => p != port))).getD []) (if server.port == some port then jsHeadOrNull ((server.ports.map (·.filter (fun p => p != port))).getD []) else server.port) cid)) server.id = _
      exact getServerRec_putServer _ _
    have hcanon := addAuditLog_canonical _ server.id uid
      (String.append "Deleted allocation on port " (toString port))
      entryId ts _ hsid huid hact hc3
    exact ⟨_, hcanon, rfl, rfl⟩
  · intro b hb hown
    exact ⟨releaseAllocs_resets server.id node.allocations b hb hown, rfl⟩

/-- Witness for the role-frame claim on the concrete fixture: removing the
owned port `400` releases it, the freed allocation still carries role
`"primary"`, the port list becomes empty and the primary port becomes
null. -/
theorem remove_allocation_witness :
    (removeAllocationFromServer w3State (some "u4") "s4" 400 (some "c9")
        "e2" "t2").2 = .released ∧
    (∃ e ∈ (removeAllocationFromServer w3State (some "u4") "s4" 400
        (some "c9") "e2" "t2").1.nodes, e.1 = "n3" ∧
      ({ w3AllocOwned with allocationOwnedto := none } : Allocation)
        ∈ e.2.allocations) ∧
    ({ w3AllocOwned with allocationOwnedto := none } : Allocation).type
      = "primary" ∧
    (∃ server2, getServerRec (removeAllocationFromServer w3State
        (some "u4") "s4" 400 (some "c9") "e2" "t2").1 "s4" = some server2 ∧
      server2.port = none ∧ server2.ports = some []) := by
  have h := remove_keeps_role_delete_resets w3State "u4" "s4" 400 "c9"
    "e2" "t2" w3User w3Server "n3" w3Node w3AllocOwned
    (by decide) (by decide) rfl rfl rfl rfl rfl rfl
  obtain ⟨h1, h2, h3, ⟨server2, hs2, hports, hport⟩, h5⟩ := h
  refine ⟨h1, h2, rfl, server2, hs2, ?_, ?_⟩
  · rw [hport]
    rfl
  · rw [hports]
    rfl

end Panel
